import Mathlib

/-!
# Verification of the XPBD particle-simulation core

A shallow embedding, over exact rational arithmetic, of the physics core of
the GPU-particles-web repository (crate `xpbd-core`): the particle data
model, the spatial hash grid (counting sort build and 27-cell query), the
XPBD constraint solvers (distance, bending, contact, density/PBF, shape
matching), the Barnes-Hut octree gravity, and the solver orchestration
(iteration loop, early-out step guard, reinitialisation).

Floating-point values are modelled as exact rationals.  The square root
(`f32::sqrt`), cosine, sine and `atan2`, which are not rational-valued,
are passed as explicit function parameters (`sqrtF`, `cosF`, `sinF`,
`atan2F`): every theorem quantifies over them (or constrains them only
through explicit hypotheses), and concrete witnesses instantiate `sqrtF`
with `ratSqrt`, which agrees with the real square root on perfect squares
of rationals.
-/

namespace XPBD

/-- 3-component vector over ℚ, mirroring `glam::Vec3`. -/
structure Vec3 where
  x : ℚ
  y : ℚ
  z : ℚ
deriving DecidableEq, Repr

namespace Vec3

def zero : Vec3 := ⟨0, 0, 0⟩

instance : Add Vec3 := ⟨fun a b => ⟨a.x + b.x, a.y + b.y, a.z + b.z⟩⟩

instance : Sub Vec3 := ⟨fun a b => ⟨a.x - b.x, a.y - b.y, a.z - b.z⟩⟩

instance : Neg Vec3 := ⟨fun a => ⟨-a.x, -a.y, -a.z⟩⟩

/-- Scalar multiplication `q • v` (`Vec3 * f32` / `f32 * Vec3` in glam). -/
instance : SMul ℚ Vec3 := ⟨fun q v => ⟨q * v.x, q * v.y, q * v.z⟩⟩

/-- Division of a vector by a scalar (`Vec3 / f32` in glam). -/
instance : HDiv Vec3 ℚ Vec3 := ⟨fun v q => ⟨v.x / q, v.y / q, v.z / q⟩⟩

instance : Zero Vec3 := ⟨zero⟩

instance : AddCommMonoid Vec3 where
  add := fun a b => a + b
  zero := zero
  add_assoc := by
    intro a b c
    show Vec3.mk _ _ _ = Vec3.mk _ _ _
    rw [Vec3.mk.injEq]
    exact ⟨add_assoc _ _ _, add_assoc _ _ _, add_assoc _ _ _⟩
  zero_add := by
    intro a
    show Vec3.mk (0 + a.x) (0 + a.y) (0 + a.z) = a
    rw [zero_add, zero_add, zero_add]
  add_zero := by
    intro a
    show Vec3.mk (a.x + 0) (a.y + 0) (a.z + 0) = a
    rw [add_zero, add_zero, add_zero]
  add_comm := by
    intro a b
    show Vec3.mk _ _ _ = Vec3.mk _ _ _
    rw [Vec3.mk.injEq]
    exact ⟨add_comm _ _, add_comm _ _, add_comm _ _⟩
  nsmul := nsmulRec

/-- Dot product. -/
def dot (a b : Vec3) : ℚ := a.x * b.x + a.y * b.y + a.z * b.z

/-- Cross product. -/
def cross (a b : Vec3) : Vec3 :=
  ⟨a.y * b.z - a.z * b.y, a.z * b.x - a.x * b.z, a.x * b.y - a.y * b.x⟩

/-- Squared euclidean length (`length_squared`). -/
def lengthSq (v : Vec3) : ℚ := dot v v

/-- Euclidean length, through the explicit square-root parameter. -/
def length (sqrtF : ℚ → ℚ) (v : Vec3) : ℚ := sqrtF (lengthSq v)

/-- Componentwise minimum (`Vec3::min`). -/
def vmin (a b : Vec3) : Vec3 := ⟨min a.x b.x, min a.y b.y, min a.z b.z⟩

/-- Componentwise maximum (`Vec3::max`). -/
def vmax (a b : Vec3) : Vec3 := ⟨max a.x b.x, max a.y b.y, max a.z b.z⟩

end Vec3

/-- Largest `j ≤ k` with `j * j ≤ n`, by downward linear search;
a simp-friendly integer square root for the small numbers in witnesses. -/
def natSqrtDown : ℕ → ℕ → ℕ
  | 0, _ => 0
  | k + 1, n => if (k + 1) * (k + 1) ≤ n then k + 1 else natSqrtDown k n

/-- Exact rational square root: correct (and exactly equal to the real
square root) whenever the argument is the square of a rational; used only
to instantiate the abstract `sqrtF` parameter in concrete witnesses. -/
def ratSqrt (q : ℚ) : ℚ :=
  if q ≤ 0 then 0
  else (natSqrtDown q.num.toNat q.num.toNat : ℚ) / (natSqrtDown q.den q.den : ℚ)

/-- Particle phase tag (`Phase` in `particle.rs`). -/
inductive Phase where
  | Free
  | Fluid
  | Cloth
  | Rigid
  | Granular
  | Gas
  | Static
deriving DecidableEq, Repr

/-- Structure-of-arrays particle storage (`ParticleSet` in `particle.rs`,
including the `inv_mass` array consumed by the constraint solvers).
Arrays are modelled as total functions from indices; only indices below
`count` are ever read or written by the embedded operations. -/
structure ParticleSet where
  count : ℕ
  position : ℕ → Vec3
  velocity : ℕ → Vec3
  inv_mass : ℕ → ℚ
  radius : ℕ → ℚ
  hash : ℕ → ℚ
  target_pos : ℕ → Vec3
  target_weight : ℕ → ℚ
  predicted : ℕ → Vec3
  corrections : ℕ → Vec3
  correction_counts : ℕ → ℕ
  phase : ℕ → Phase
  lambda : ℕ → ℚ
  density : ℕ → ℚ
  vorticity : ℕ → Vec3
  charge : ℕ → ℚ

/-- Pointwise array update (a `arr[k] = v` store). -/
def upd {α : Type} (f : ℕ → α) (k : ℕ) (v : α) : ℕ → α :=
  fun i => if i = k then v else f i

/-- `ParticleSet::new(count)`: default-initialised particle storage
(zero vectors, radius 0.05, unit inverse mass, phase Free). -/
def ParticleSet.new (count : ℕ) : ParticleSet where
  count := count
  position := fun _ => Vec3.zero
  velocity := fun _ => Vec3.zero
  inv_mass := fun _ => 1
  radius := fun _ => 1/20
  hash := fun _ => 0
  target_pos := fun _ => Vec3.zero
  target_weight := fun _ => 0
  predicted := fun _ => Vec3.zero
  corrections := fun _ => Vec3.zero
  correction_counts := fun _ => 0
  phase := fun _ => Phase.Free
  lambda := fun _ => 0
  density := fun _ => 0
  vorticity := fun _ => Vec3.zero
  charge := fun _ => 0

/-- XPBD distance constraint (`DistanceConstraint` in `distance.rs`). -/
structure DistanceConstraint where
  i : ℕ
  j : ℕ
  rest_length : ℚ
  compliance : ℚ
  lambda : ℚ
deriving DecidableEq, Repr

/-- One iteration of the body of `solve_distance_constraints` in
`distance.rs`: solves a single constraint, returning the updated
constraint (its `lambda`) and particle set. -/
def solveDistanceOne (sqrtF : ℚ → ℚ) (dt : ℚ) (ps : ParticleSet)
    (c : DistanceConstraint) : DistanceConstraint × ParticleSet :=
  let dt_sq := dt * dt
  let i := c.i
  let j := c.j
  let w_i := ps.inv_mass i
  let w_j := ps.inv_mass j
  let w_sum := w_i + w_j
  if w_sum < 1/10000000000 then (c, ps)
  else
    let p_i := ps.predicted i
    let p_j := ps.predicted j
    let diff := p_i - p_j
    let dist := Vec3.length sqrtF diff
    if dist < 1/10000000000 then (c, ps)
    else
      let c_val := dist - c.rest_length
      let n := diff / dist
      let alpha_tilde := c.compliance / dt_sq
      let delta_lambda := -(c_val + alpha_tilde * c.lambda) / (w_sum + alpha_tilde)
      let correction := delta_lambda • n
      let ps := { ps with
        corrections :=
          upd (upd ps.corrections i (ps.corrections i + w_i • correction)) j
            ((upd ps.corrections i (ps.corrections i + w_i • correction)) j
              - w_j • correction),
        correction_counts :=
          upd (upd ps.correction_counts i (ps.correction_counts i + 1)) j
            ((upd ps.correction_counts i (ps.correction_counts i + 1)) j + 1) }
      ({ c with lambda := c.lambda + delta_lambda }, ps)

/-- `solve_distance_constraints` in `distance.rs`: folds the
single-constraint solve over the constraint list. -/
def solveDistanceConstraints (sqrtF : ℚ → ℚ)
    (constraints : List DistanceConstraint) (ps : ParticleSet) (dt : ℚ) :
    List DistanceConstraint × ParticleSet :=
  constraints.foldl
    (fun acc c =>
      let r := solveDistanceOne sqrtF dt acc.2 c
      (acc.1 ++ [r.1], r.2))
    ([], ps)

/-- Dihedral bending constraint (`BendingConstraint` in `bending.rs`). -/
structure BendingConstraint where
  i : ℕ
  j : ℕ
  k : ℕ
  l : ℕ
  rest_angle : ℚ
  compliance : ℚ
  lambda : ℚ
deriving DecidableEq, Repr

/-- `dihedral_angle` in `bending.rs`: signed dihedral angle between the
triangles (p1,p2,p3) and (p1,p2,p4) sharing edge (p1,p2); degenerate
configurations return 0. -/
def dihedralAngle (sqrtF : ℚ → ℚ) (atan2F : ℚ → ℚ → ℚ)
    (p1 p2 p3 p4 : Vec3) : ℚ :=
  let e := p2 - p1
  let e_len := Vec3.length sqrtF e
  if e_len < 1/100000000 then 0
  else
    let e_norm := e / e_len
    let n1 := Vec3.cross (p3 - p1) (p3 - p2)
    let n2 := Vec3.cross (p4 - p2) (p4 - p1)
    let n1_len := Vec3.length sqrtF n1
    let n2_len := Vec3.length sqrtF n2
    if n1_len < 1/100000000 ∨ n2_len < 1/100000000 then 0
    else
      let n1 := n1 / n1_len
      let n2 := n2 / n2_len
      let cos_angle := max (-1) (min 1 (Vec3.dot n1 n2))
      let sin_angle := Vec3.dot (Vec3.cross n1 n2) e_norm
      atan2F sin_angle cos_angle

/-- One iteration of the body of `solve_bending_constraints` in
`bending.rs`. -/
def solveBendingOne (sqrtF : ℚ → ℚ) (atan2F : ℚ → ℚ → ℚ) (dt : ℚ)
    (ps : ParticleSet) (c : BendingConstraint) :
    BendingConstraint × ParticleSet :=
  let dt_sq := dt * dt
  let ii := c.i
  let jj := c.j
  let kk := c.k
  let ll := c.l
  let p1 := ps.predicted ii
  let p2 := ps.predicted jj
  let p3 := ps.predicted kk
  let p4 := ps.predicted ll
  let current_angle := dihedralAngle sqrtF atan2F p1 p2 p3 p4
  let angle_error := current_angle - c.rest_angle
  if |angle_error| < 1/1000000 then (c, ps)
  else
    let w_i := ps.inv_mass ii
    let w_j := ps.inv_mass jj
    let w_k := ps.inv_mass kk
    let w_l := ps.inv_mass ll
    let w_sum := w_i + w_j + w_k + w_l
    if w_sum < 1/10000000000 then (c, ps)
    else
      let e := p2 - p1
      let e_len := Vec3.length sqrtF e
      if e_len < 1/100000000 then (c, ps)
      else
        let e_len_sq := e_len * e_len
        let n1 := Vec3.cross (p3 - p1) (p3 - p2)
        let n2 := Vec3.cross (p4 - p2) (p4 - p1)
        let n1_len_sq := Vec3.lengthSq n1
        let n2_len_sq := Vec3.lengthSq n2
        if n1_len_sq < 1/10000000000000000 ∨ n2_len_sq < 1/10000000000000000
          then (c, ps)
        else
          let grad_k := (-e_len / n1_len_sq) • n1
          let grad_l := (-e_len / n2_len_sq) • n2
          let t_k := Vec3.dot (p3 - p1) e / e_len_sq
          let t_l := Vec3.dot (p4 - p1) e / e_len_sq
          let grad_i := (-(1 - t_k)) • grad_k + (-(1 - t_l)) • grad_l
          let grad_j := (-t_k) • grad_k + (-t_l) • grad_l
          let denom := w_k * Vec3.lengthSq grad_k + w_l * Vec3.lengthSq grad_l
            + w_i * Vec3.lengthSq grad_i + w_j * Vec3.lengthSq grad_j
          if denom < 1/10000000000 then (c, ps)
          else
            let alpha_tilde := c.compliance / dt_sq
            let delta_lambda := -(angle_error + alpha_tilde * c.lambda)
              / (denom + alpha_tilde)
            let corr0 := ps.corrections
            let corr1 := upd corr0 kk (corr0 kk + (delta_lambda * w_k) • grad_k)
            let corr2 := upd corr1 ll (corr1 ll + (delta_lambda * w_l) • grad_l)
            let corr3 := upd corr2 ii (corr2 ii + (delta_lambda * w_i) • grad_i)
            let corr4 := upd corr3 jj (corr3 jj + (delta_lambda * w_j) • grad_j)
            let cnt0 := ps.correction_counts
            let cnt1 := upd cnt0 kk (cnt0 kk + 1)
            let cnt2 := upd cnt1 ll (cnt1 ll + 1)
            let cnt3 := upd cnt2 ii (cnt2 ii + 1)
            let cnt4 := upd cnt3 jj (cnt3 jj + 1)
            ({ c with lambda := c.lambda + delta_lambda },
              { ps with corrections := corr4, correction_counts := cnt4 })

/-- `solve_bending_constraints` in `bending.rs`. -/
def solveBendingConstraints (sqrtF : ℚ → ℚ) (atan2F : ℚ → ℚ → ℚ)
    (constraints : List BendingConstraint) (ps : ParticleSet) (dt : ℚ) :
    List BendingConstraint × ParticleSet :=
  constraints.foldl
    (fun acc c =>
      let r := solveBendingOne sqrtF atan2F dt acc.2 c
      (acc.1 ++ [r.1], r.2))
    ([], ps)

/-- Detected particle-particle contact (`ContactConstraint` in
`contact.rs`). -/
structure ContactConstraint where
  i : ℕ
  j : ℕ
  normal : Vec3
  penetration : ℚ
deriving DecidableEq, Repr

/-- `detect_contacts` in `contact.rs`, with the spatial grid abstracted by
its neighbour-query function `query`: for every particle `i` and every
grid-reported neighbour `j > i` whose spheres overlap
(`1e-8 < dist < r_i + r_j`), emit a contact with the unit normal from `i`
to `j` and the penetration depth. -/
def detectContacts (sqrtF : ℚ → ℚ) (positions : ℕ → Vec3) (radii : ℕ → ℚ)
    (count : ℕ) (query : Vec3 → List ℕ) : List ContactConstraint :=
  (List.range count).flatMap fun i =>
    (query (positions i)).filterMap fun j =>
      if j ≤ i then none
      else
        let diff := positions j - positions i
        let dist := Vec3.length sqrtF diff
        let min_dist := radii i + radii j
        if dist < min_dist ∧ dist > 1/100000000 then
          some ⟨i, j, diff / dist, min_dist - dist⟩
        else none

/-- One iteration of the body of `solve_contacts` in `contact.rs`,
acting on the corrections/counts buffers. -/
def solveContactOne (sqrtF : ℚ → ℚ) (predicted previous : ℕ → Vec3)
    (inv_mass : ℕ → ℚ) (friction dt : ℚ)
    (buf : (ℕ → Vec3) × (ℕ → ℕ)) (contact : ContactConstraint) :
    (ℕ → Vec3) × (ℕ → ℕ) :=
  let i := contact.i
  let j := contact.j
  let w_i := inv_mass i
  let w_j := inv_mass j
  let w_sum := w_i + w_j
  if w_sum < 1/10000000000 then buf
  else
    let correction := (contact.penetration / w_sum) • contact.normal
    let corr0 := buf.1
    let corr1 := upd corr0 i (corr0 i - w_i • correction)
    let corr2 := upd corr1 j (corr1 j + w_j • correction)
    let corr3 :=
      if friction > 0 ∧ dt > 1/10000000000 then
        let vel_i := (predicted i - previous i) / dt
        let vel_j := (predicted j - previous j) / dt
        let rel_vel := vel_i - vel_j
        let vn := Vec3.dot rel_vel contact.normal
        let vt := rel_vel - vn • contact.normal
        let vt_len := Vec3.length sqrtF vt
        if vt_len > 1/100000000 then
          let max_friction := friction * contact.penetration * (1/2)
          let friction_mag := min (vt_len * dt) max_friction
          let tangent := vt / vt_len
          let corr2' := upd corr2 i (corr2 i - (friction_mag * w_i / w_sum) • tangent)
          upd corr2' j (corr2' j + (friction_mag * w_j / w_sum) • tangent)
        else corr2
      else corr2
    let cnt0 := buf.2
    let cnt1 := upd cnt0 i (cnt0 i + 1)
    let cnt2 := upd cnt1 j (cnt1 j + 1)
    (corr3, cnt2)

/-- `solve_contacts` in `contact.rs`: folds the per-contact solve over the
contact list, accumulating into the corrections/counts buffers. -/
def solveContacts (sqrtF : ℚ → ℚ) (contacts : List ContactConstraint)
    (predicted previous : ℕ → Vec3) (inv_mass : ℕ → ℚ)
    (corrections : ℕ → Vec3) (correction_counts : ℕ → ℕ)
    (friction dt : ℚ) : (ℕ → Vec3) × (ℕ → ℕ) :=
  contacts.foldl (solveContactOne sqrtF predicted previous inv_mass friction dt)
    (corrections, correction_counts)

/-- Column-major 3×3 matrix, mirroring `glam::Mat3`. -/
structure Mat3 where
  c0 : Vec3
  c1 : Vec3
  c2 : Vec3
deriving DecidableEq, Repr

namespace Mat3

def identity : Mat3 := ⟨⟨1, 0, 0⟩, ⟨0, 1, 0⟩, ⟨0, 0, 1⟩⟩

def zeroM : Mat3 := ⟨Vec3.zero, Vec3.zero, Vec3.zero⟩

instance : Add Mat3 := ⟨fun a b => ⟨a.c0 + b.c0, a.c1 + b.c1, a.c2 + b.c2⟩⟩

instance : SMul ℚ Mat3 := ⟨fun q m => ⟨q • m.c0, q • m.c1, q • m.c2⟩⟩

/-- Matrix-vector product (`Mat3 * Vec3`). -/
def mulVec (m : Mat3) (v : Vec3) : Vec3 :=
  v.x • m.c0 + v.y • m.c1 + v.z • m.c2

def transpose (m : Mat3) : Mat3 :=
  ⟨⟨m.c0.x, m.c1.x, m.c2.x⟩, ⟨m.c0.y, m.c1.y, m.c2.y⟩,
    ⟨m.c0.z, m.c1.z, m.c2.z⟩⟩

def det (m : Mat3) : ℚ := Vec3.dot m.c0 (Vec3.cross m.c1 m.c2)

/-- Matrix inverse via the adjugate (as `glam::Mat3::inverse`); only ever
used behind the source's `|det| < 1e-10` singularity guard. -/
def inverse (m : Mat3) : Mat3 :=
  (1 / det m) •
    transpose ⟨Vec3.cross m.c1 m.c2, Vec3.cross m.c2 m.c0,
      Vec3.cross m.c0 m.c1⟩

end Mat3

/-- `mat3_outer` in `shape_matching.rs`: M = a * bᵀ. -/
def mat3Outer (a b : Vec3) : Mat3 := ⟨b.x • a, b.y • a, b.z • a⟩

/-- `polar_decomposition_iterative` in `shape_matching.rs`: 10 iterations
of R ← 0.5 (R + R⁻ᵀ), with an identity fallback on near-singular
matrices; the recursion is on the explicit iteration count. -/
def polarDecompositionGo : ℕ → Mat3 → Mat3
  | 0, r => r
  | fuel + 1, r =>
    if |Mat3.det r| < 1/10000000000 then Mat3.identity
    else polarDecompositionGo fuel ((1/2 : ℚ) • (r + Mat3.transpose (Mat3.inverse r)))

def polarDecompositionIterative (a : Mat3) : Mat3 :=
  polarDecompositionGo 10 a

/-- Rigid shape-matching group (`ShapeMatchGroup` in
`shape_matching.rs`). -/
structure ShapeMatchGroup where
  particle_indices : List ℕ
  rest_positions : List Vec3
  rest_com : Vec3
  stiffness : ℚ

/-- Solve of a single shape-matching group (the loop body of
`solve_shape_matching` in `shape_matching.rs`). -/
def solveShapeMatchGroup (ps : ParticleSet) (group : ShapeMatchGroup) :
    ParticleSet :=
  if group.particle_indices.isEmpty then ps
  else
    let comSum := group.particle_indices.foldl
      (fun (acc : Vec3 × ℚ) idx =>
        if ps.inv_mass idx = 0 then acc
        else
          let mass := 1 / ps.inv_mass idx
          (acc.1 + mass • ps.predicted idx, acc.2 + mass))
      (Vec3.zero, 0)
    let total_mass := comSum.2
    if total_mass < 1/10000000000 then ps
    else
      let com := comSum.1 / total_mass
      let a_pq := (group.particle_indices.zip group.rest_positions).foldl
        (fun (acc : Mat3) ip =>
          if ps.inv_mass ip.1 = 0 then acc
          else
            let mass := 1 / ps.inv_mass ip.1
            let q := ps.predicted ip.1 - com
            acc + mat3Outer (mass • q) ip.2)
        Mat3.zeroM
      let a_pq := a_pq + (1/1000000 : ℚ) • Mat3.identity
      let r := polarDecompositionIterative a_pq
      (group.particle_indices.zip group.rest_positions).foldl
        (fun (s : ParticleSet) ip =>
          if s.inv_mass ip.1 = 0 then s
          else
            let goal := Mat3.mulVec r ip.2 + com
            let correction := group.stiffness • (goal - s.predicted ip.1)
            { s with
              corrections := upd s.corrections ip.1
                (s.corrections ip.1 + correction),
              correction_counts := upd s.correction_counts ip.1
                (s.correction_counts ip.1 + 1) })
        ps

/-- `solve_shape_matching` in `shape_matching.rs`: solves every group in
turn. -/
def solveShapeMatching (groups : List ShapeMatchGroup) (ps : ParticleSet) :
    ParticleSet :=
  groups.foldl solveShapeMatchGroup ps

/-- `poly6_kernel` in `fluids/mod.rs`, with the float constant π passed
explicitly. -/
def poly6Kernel (piQ : ℚ) (r h : ℚ) : ℚ :=
  if r ≥ h then 0
  else
    let h2 := h * h
    let r2 := r * r
    let diff := h2 - r2
    let h9 := h2 * h2 * h2 * h2 * h
    let coeff := 315 / (64 * piQ * h9)
    coeff * diff * diff * diff

/-- `spiky_gradient` in `fluids/mod.rs`. -/
def spikyGradient (piQ : ℚ) (r : Vec3) (r_len h : ℚ) : Vec3 :=
  if r_len ≥ h ∨ r_len ≤ 1/1000000 then Vec3.zero
  else
    let h6 := h * h * h * h * h * h
    let coeff := -45 / (piQ * h6)
    let diff := h - r_len
    (coeff * diff * diff) • (r / r_len)

/-- `is_fluid_phase` in `constraints/density.rs`. -/
def isFluidPhase : Phase → Bool
  | Phase.Fluid => true
  | Phase.Gas => true
  | _ => false

/-- Relaxation parameter ε = 600 of `density.rs`. -/
def densityEpsilon : ℚ := 600

/-- Density accumulated for query origin `i` in pass 1 of
`solve_density_constraints` in `density.rs`. -/
def densityPassRho (sqrtF : ℚ → ℚ) (piQ h : ℚ) (predicted : ℕ → Vec3)
    (query : Vec3 → List ℕ) (i : ℕ) : ℚ :=
  (query (predicted i)).foldl
    (fun rho j =>
      let r_len := Vec3.length sqrtF (predicted i - predicted j)
      if r_len < h then rho + poly6Kernel piQ r_len h else rho)
    0

/-- Gradient accumulation for query origin `i` in pass 2 of
`solve_density_constraints`: returns (grad_sum_sq, grad_self). -/
def densityPassGrad (sqrtF : ℚ → ℚ) (piQ h inv_rho0 : ℚ)
    (predicted : ℕ → Vec3) (query : Vec3 → List ℕ) (i : ℕ) : ℚ × Vec3 :=
  (query (predicted i)).foldl
    (fun acc j =>
      if j = i then acc
      else
        let r := predicted i - predicted j
        let r_len := Vec3.length sqrtF r
        if r_len < h then
          let grad_j := inv_rho0 • spikyGradient piQ r r_len h
          (acc.1 + Vec3.lengthSq grad_j, acc.2 + grad_j)
        else acc)
    (0, Vec3.zero)

/-- Position-correction accumulation for query origin `i` in pass 3 of
`solve_density_constraints`. -/
def densityPassDeltaP (sqrtF : ℚ → ℚ) (piQ h inv_rho0 poly6_dq : ℚ)
    (tensile : Bool) (predicted : ℕ → Vec3) (lambdaArr : ℕ → ℚ)
    (phase : ℕ → Phase) (lambda_i : ℚ) (query : Vec3 → List ℕ) (i : ℕ) :
    Vec3 :=
  (query (predicted i)).foldl
    (fun delta_p j =>
      if j = i then delta_p
      else
        let r := predicted i - predicted j
        let r_len := Vec3.length sqrtF r
        if r_len ≥ h then delta_p
        else
          let lambda_j := if isFluidPhase (phase j) then lambdaArr j else 0
          let s_corr :=
            if tensile then
              -(1/1000) * (poly6Kernel piQ r_len h / poly6_dq) ^ 4
            else 0
          delta_p + ((lambda_i + lambda_j + s_corr) * inv_rho0) •
            spikyGradient piQ r r_len h)
    Vec3.zero

/-- `solve_density_constraints` in `density.rs`: the three sequential
passes (density, lambda, position corrections) over fluid/gas particles,
with the spatial grid abstracted by its query function. -/
def solveDensityConstraints (sqrtF : ℚ → ℚ) (piQ : ℚ) (ps : ParticleSet)
    (query : Vec3 → List ℕ) (rest_density smoothing_radius : ℚ)
    (tensile_correction : Bool) : ParticleSet :=
  let count := ps.count
  let h := smoothing_radius
  let inv_rho0 := 1 / rest_density
  let poly6_dq :=
    if tensile_correction then poly6Kernel piQ (h * (3/10)) h else 1
  let density1 : ℕ → ℚ := fun i =>
    if i < count ∧ isFluidPhase (ps.phase i) then
      densityPassRho sqrtF piQ h ps.predicted query i
    else ps.density i
  let lambda2 : ℕ → ℚ := fun i =>
    if i < count ∧ isFluidPhase (ps.phase i) then
      let c_i := density1 i * inv_rho0 - 1
      let g := densityPassGrad sqrtF piQ h inv_rho0 ps.predicted query i
      let grad_sum_sq := g.1 + Vec3.lengthSq g.2 ; -c_i / (grad_sum_sq + densityEpsilon)
    else ps.lambda i
  let corrections3 : ℕ → Vec3 := fun i =>
    if i < count ∧ isFluidPhase (ps.phase i) then
      ps.corrections i +
        densityPassDeltaP sqrtF piQ h inv_rho0 poly6_dq tensile_correction
          ps.predicted lambda2 ps.phase (lambda2 i) query i
    else ps.corrections i
  let counts3 : ℕ → ℕ := fun i =>
    if i < count ∧ isFluidPhase (ps.phase i) then ps.correction_counts i + 1
    else ps.correction_counts i
  { ps with
    density := density1
    lambda := lambda2
    corrections := corrections3
    correction_counts := counts3 }

/-- Interpret an `i32` cell coordinate as a `u32` (the `as u32` cast in
`hash_cell`): two's-complement reduction modulo 2³². -/
def toU32 (c : ℤ) : ℕ := (c % 4294967296).toNat

/-- `SpatialHashGrid::hash_cell`: wrapping multiplications by the three
large primes, XOR, then reduction modulo the table size. -/
def hashCell (tableSize : ℕ) (cx cy cz : ℤ) : ℕ :=
  ((toU32 cx * 73856093 % 4294967296) ^^^
    (toU32 cy * 19349663 % 4294967296) ^^^
    (toU32 cz * 83492791 % 4294967296)) % tableSize

/-- `SpatialHashGrid::cell_coords`: world position to integer cell
coordinates via `floor(pos * inv_cell_size)`. -/
def cellCoords (invCellSize : ℚ) (pos : Vec3) : ℤ × ℤ × ℤ :=
  (⌊pos.x * invCellSize⌋, ⌊pos.y * invCellSize⌋, ⌊pos.z * invCellSize⌋)

/-- The cell hash of particle `i` (`particle_hashes[i]` in
`SpatialHashGrid::build`). -/
def particleHash (invCellSize : ℚ) (tableSize : ℕ) (positions : ℕ → Vec3)
    (i : ℕ) : ℕ :=
  let c := cellCoords invCellSize (positions i)
  hashCell tableSize c.1 c.2.1 c.2.2

/-- Pass 2 of `SpatialHashGrid::build`: per-cell particle counts. -/
def gridCellCount (H : ℕ → ℕ) (count : ℕ) : ℕ → ℕ :=
  (List.range count).foldl (fun f i => upd f (H i) (f (H i) + 1)) (fun _ => 0)

/-- Pass 3 of `SpatialHashGrid::build`: exclusive prefix sum of the
per-cell counts (`cell_start`). -/
def gridCellStart (cnt : ℕ → ℕ) : ℕ → ℕ
  | 0 => 0
  | h + 1 => gridCellStart cnt h + cnt h

/-- Pass 5 of `SpatialHashGrid::build`: scatter the particle indices into
the sorted array, using a per-cell write cursor (the reused
`cell_count`).  Returns (sorted_indices, cursor). -/
def gridScatter (H : ℕ → ℕ) (start : ℕ → ℕ) (count : ℕ) :
    (ℕ → ℕ) × (ℕ → ℕ) :=
  (List.range count).foldl
    (fun buf i =>
      let h := H i
      (upd buf.1 (start h + buf.2 h) i, upd buf.2 h (buf.2 h + 1)))
    (fun _ => 0, fun _ => 0)

/-- The particle indices among the first `k` whose cell hash is `h`, in
increasing order — the intended contents of grid bucket `h`. -/
def bucketElems (H : ℕ → ℕ) (k h : ℕ) : List ℕ :=
  (List.range k).filter (fun i => H i = h)

/-- The built spatial hash grid (`SpatialHashGrid` after `build`). -/
structure BuiltGrid where
  invCellSize : ℚ
  tableSize : ℕ
  cellCount : ℕ → ℕ
  cellStart : ℕ → ℕ
  sortedIndices : ℕ → ℕ

/-- `SpatialHashGrid::build(positions, count)`: counting sort of the
particle indices by cell hash. -/
def buildGrid (invCellSize : ℚ) (tableSize : ℕ) (positions : ℕ → Vec3)
    (count : ℕ) : BuiltGrid :=
  let H := particleHash invCellSize tableSize positions
  let start := gridCellStart (gridCellCount H count)
  let scatter := gridScatter H start count
  { invCellSize := invCellSize
    tableSize := tableSize
    cellCount := scatter.2
    cellStart := start
    sortedIndices := scatter.1 }

/-- Contents of the grid bucket for hash value `h`: the slice
`sorted_indices[cell_start[h] .. cell_start[h] + cell_count[h])`. -/
def BuiltGrid.bucket (g : BuiltGrid) (h : ℕ) : List ℕ :=
  (List.range (g.cellCount h)).map (fun k => g.sortedIndices (g.cellStart h + k))

/-- `SpatialHashGrid::query_neighbors(pos)`: every particle index found in
the 3×3×3 block of cells centred on `pos`'s cell, in iteration order. -/
def BuiltGrid.queryNeighbors (g : BuiltGrid) (pos : Vec3) : List ℕ :=
  let c := cellCoords g.invCellSize pos
  ([-1, 0, 1] : List ℤ).flatMap fun dx =>
    ([-1, 0, 1] : List ℤ).flatMap fun dy =>
      ([-1, 0, 1] : List ℤ).flatMap fun dz =>
        g.bucket (hashCell g.tableSize (c.1 + dx) (c.2.1 + dy) (c.2.2 + dz))

/-- Barnes-Hut octree node (`OctreeNode` in `forces/gravity.rs`): a leaf
holds one particle index; an internal node holds eight child slots with
the aggregate mass and centre of mass.  An absent child
(`Option<Box<OctreeNode>> = None` in the source) is encoded by the
`empty` constructor. -/
inductive OTree where
  | empty
  | leaf (bmin bmax com : Vec3) (mass : ℚ) (idx : ℕ)
  | node (bmin bmax com : Vec3) (mass : ℚ)
      (k0 k1 k2 k3 k4 k5 k6 k7 : OTree)
deriving Repr

namespace OTree

/-- `OctreeNode::octant`: which child octant a position falls into. -/
def octant (center pos : Vec3) : ℕ :=
  (if pos.x ≥ center.x then 1 else 0) +
  (if pos.y ≥ center.y then 2 else 0) +
  (if pos.z ≥ center.z then 4 else 0)

/-- `OctreeNode::child_bounds`: the bounding box of a child octant. -/
def childBounds (bmin bmax : Vec3) (oct : ℕ) : Vec3 × Vec3 :=
  let center := (1/2 : ℚ) • (bmin + bmax)
  let cminx := if oct % 2 = 1 then center.x else bmin.x
  let cmaxx := if oct % 2 = 1 then bmax.x else center.x
  let cminy := if oct / 2 % 2 = 1 then center.y else bmin.y
  let cmaxy := if oct / 2 % 2 = 1 then bmax.y else center.y
  let cminz := if oct / 4 % 2 = 1 then center.z else bmin.z
  let cmaxz := if oct / 4 % 2 = 1 then bmax.z else center.z
  (⟨cminx, cminy, cminz⟩, ⟨cmaxx, cmaxy, cmaxz⟩)

/-- Child slot `oct` of an internal node (`empty` when absent). -/
def getOct (t : OTree) (oct : ℕ) : OTree :=
  match t with
  | empty => empty
  | leaf _ _ _ _ _ => empty
  | node _ _ _ _ k0 k1 k2 k3 k4 k5 k6 k7 =>
    match oct with
    | 0 => k0
    | 1 => k1
    | 2 => k2
    | 3 => k3
    | 4 => k4
    | 5 => k5
    | 6 => k6
    | _ => k7

/-- Replace child slot `oct` of an internal node. -/
def setOct (t : OTree) (oct : ℕ) (c : OTree) : OTree :=
  match t with
  | empty => empty
  | leaf bmin bmax com m idx => leaf bmin bmax com m idx
  | node bmin bmax com m k0 k1 k2 k3 k4 k5 k6 k7 =>
    match oct with
    | 0 => node bmin bmax com m c k1 k2 k3 k4 k5 k6 k7
    | 1 => node bmin bmax com m k0 c k2 k3 k4 k5 k6 k7
    | 2 => node bmin bmax com m k0 k1 c k3 k4 k5 k6 k7
    | 3 => node bmin bmax com m k0 k1 k2 c k4 k5 k6 k7
    | 4 => node bmin bmax com m k0 k1 k2 k3 c k5 k6 k7
    | 5 => node bmin bmax com m k0 k1 k2 k3 k4 c k6 k7
    | 6 => node bmin bmax com m k0 k1 k2 k3 k4 k5 c k7
    | _ => node bmin bmax com m k0 k1 k2 k3 k4 k5 k6 c

def bboxMin : OTree → Vec3
  | empty => Vec3.zero
  | leaf bmin _ _ _ _ => bmin
  | node bmin _ _ _ _ _ _ _ _ _ _ _ => bmin

def bboxMax : OTree → Vec3
  | empty => Vec3.zero
  | leaf _ bmax _ _ _ => bmax
  | node _ bmax _ _ _ _ _ _ _ _ _ _ => bmax

def centerOfMass : OTree → Vec3
  | empty => Vec3.zero
  | leaf _ _ com _ _ => com
  | node _ _ com _ _ _ _ _ _ _ _ _ => com

def totalMass : OTree → ℚ
  | empty => 0
  | leaf _ _ _ m _ => m
  | node _ _ _ m _ _ _ _ _ _ _ _ => m

/-- The incremental aggregate update at the end of `OctreeNode::insert`:
`total_mass += mass` and the running centre-of-mass update. -/
def updAggregate (t : OTree) (pos : Vec3) (mass : ℚ) : OTree :=
  match t with
  | empty => empty
  | leaf bmin bmax com m idx =>
    leaf bmin bmax ((1 / (m + mass)) • (m • com + mass • pos)) (m + mass) idx
  | node bmin bmax com m k0 k1 k2 k3 k4 k5 k6 k7 =>
    node bmin bmax ((1 / (m + mass)) • (m • com + mass • pos)) (m + mass)
      k0 k1 k2 k3 k4 k5 k6 k7

/-- `OctreeNode::insert(pos, mass, idx, depth)`, with the depth counter
re-indexed as the structural fuel `33 - depth` (the source guard
`depth > 32` is exactly `fuel = 0`).  The boolean is the source's return
value; as in the source, the boolean of the recursive call is discarded,
and the aggregate mass/centre-of-mass update runs unconditionally.
Insertion is never invoked on an absent node. -/
def insertGo : ℕ → OTree → Vec3 → ℚ → ℕ → OTree × Bool
  | 0, t, _, _, _ => (t, false)
  | fuel + 1, t, pos, mass, idx =>
    let center := (1/2 : ℚ) • (t.bboxMin + t.bboxMax)
    let t1 :=
      match t with
      | empty => empty
      | leaf bmin bmax com m pidx =>
        -- split the leaf: re-insert the existing particle as a child leaf
        let octE := octant center com
        let cb := childBounds bmin bmax octE
        let childE := leaf cb.1 cb.2 com m pidx
        let base := setOct (node bmin bmax com m empty empty empty empty
          empty empty empty empty) octE childE
        let octN := octant center pos
        (match getOct base octN with
          | empty =>
            let cbN := childBounds bmin bmax octN
            setOct base octN (leaf cbN.1 cbN.2 pos mass idx)
          | c => setOct base octN (insertGo fuel c pos mass idx).1)
      | node bmin bmax com m k0 k1 k2 k3 k4 k5 k6 k7 =>
        let t0 := node bmin bmax com m k0 k1 k2 k3 k4 k5 k6 k7
        let oct := octant center pos
        (match getOct t0 oct with
          | empty =>
            let cb := childBounds bmin bmax oct
            setOct t0 oct (leaf cb.1 cb.2 pos mass idx)
          | c => setOct t0 oct (insertGo fuel c pos mass idx).1)
    (updAggregate t1 pos mass, true)

/-- `OctreeNode::size`: the largest bounding-box side length. -/
def size (t : OTree) : ℚ :=
  let d := t.bboxMax - t.bboxMin
  max (max d.x d.y) d.z

end OTree

/-- `build_octree(positions, count)` in `forces/gravity.rs`: bounding box
with a 0.01 margin, then insert every particle with unit mass starting at
depth 0 (fuel 33). -/
def buildOctree (positions : ℕ → Vec3) (count : ℕ) : Option OTree :=
  if count = 0 then none
  else
    let bounds := (List.range (count - 1)).foldl
      (fun (b : Vec3 × Vec3) k =>
        (Vec3.vmin b.1 (positions (k + 1)), Vec3.vmax b.2 (positions (k + 1))))
      (positions 0, positions 0)
    let margin : Vec3 := ⟨1/100, 1/100, 1/100⟩
    let bmin := bounds.1 - margin
    let bmax := bounds.2 + margin
    let root := OTree.node bmin bmax Vec3.zero 0 OTree.empty OTree.empty
      OTree.empty OTree.empty OTree.empty OTree.empty OTree.empty OTree.empty
    some ((List.range count).foldl
      (fun t i => (OTree.insertGo 33 t (positions i) 1 i).1) root)

/-- `traverse_octree` in `forces/gravity.rs`: Barnes-Hut force
accumulation for the particle `pidx` at `pos`.  The stack-based loop of
the source visits exactly the nodes this structural recursion visits and
adds the same contributions (vector addition over exact rationals is
associative and commutative, so the stack order is immaterial);
an absent child contributes nothing, exactly as a `None` child is never
pushed on the stack. -/
def traverseOctree (sqrtF : ℚ → ℚ) (theta soft_sq g : ℚ) (pos : Vec3)
    (pidx : ℕ) : OTree → Vec3
  | OTree.empty => Vec3.zero
  | OTree.leaf _ _ com m idx =>
    if idx = pidx then Vec3.zero
    else if m < 1/10000000000 then Vec3.zero
    else
      let diff := com - pos
      let dist_sq := Vec3.lengthSq diff + soft_sq
      let dist := sqrtF dist_sq
      if dist > 1/100000000 then (g * m / (dist_sq * dist)) • diff
      else Vec3.zero
  | OTree.node bmin bmax com m k0 k1 k2 k3 k4 k5 k6 k7 =>
    if m < 1/10000000000 then Vec3.zero
    else
      let diff := com - pos
      let dist_sq := Vec3.lengthSq diff + soft_sq
      let s := OTree.size (OTree.node bmin bmax com m k0 k1 k2 k3 k4 k5 k6 k7)
      if s * s / dist_sq < theta * theta then
        let dist := sqrtF dist_sq
        if dist > 1/100000000 then (g * m / (dist_sq * dist)) • diff
        else Vec3.zero
      else
        traverseOctree sqrtF theta soft_sq g pos pidx k0 +
        traverseOctree sqrtF theta soft_sq g pos pidx k1 +
        traverseOctree sqrtF theta soft_sq g pos pidx k2 +
        traverseOctree sqrtF theta soft_sq g pos pidx k3 +
        traverseOctree sqrtF theta soft_sq g pos pidx k4 +
        traverseOctree sqrtF theta soft_sq g pos pidx k5 +
        traverseOctree sqrtF theta soft_sq g pos pidx k6 +
        traverseOctree sqrtF theta soft_sq g pos pidx k7

/-- The (position, mass, index) data of every leaf of an octree, in
left-to-right order. -/
def leafData : OTree → List (Vec3 × ℚ × ℕ)
  | OTree.empty => []
  | OTree.leaf _ _ com m idx => [(com, m, idx)]
  | OTree.node _ _ _ _ k0 k1 k2 k3 k4 k5 k6 k7 =>
    leafData k0 ++ leafData k1 ++ leafData k2 ++ leafData k3 ++
    leafData k4 ++ leafData k5 ++ leafData k6 ++ leafData k7

/-- Every internal node of the tree aggregates mass at least 1e-10 (the
traversal's skip threshold); decidable so witnesses can check it. -/
def internalMassOK : OTree → Bool
  | OTree.empty => true
  | OTree.leaf _ _ _ _ _ => true
  | OTree.node _ _ _ m k0 k1 k2 k3 k4 k5 k6 k7 =>
    (decide (¬ m < 1/10000000000)) &&
    internalMassOK k0 && internalMassOK k1 && internalMassOK k2 &&
    internalMassOK k3 && internalMassOK k4 && internalMassOK k5 &&
    internalMassOK k6 && internalMassOK k7

/-- `apply_nbody_gravity` in `forces/gravity.rs` (sequential path): build
the octree, then add `dt`-scaled traversal accelerations to the
velocities. -/
def applyNbodyGravity (sqrtF : ℚ → ℚ) (positions velocities : ℕ → Vec3)
    (count : ℕ) (g softening theta dt : ℚ) : ℕ → Vec3 :=
  match buildOctree positions count with
  | none => velocities
  | some tree =>
    let soft_sq := softening * softening
    fun i =>
      if i < count then
        velocities i +
          dt • traverseOctree sqrtF theta soft_sq g (positions i) i tree
      else velocities i

/-- Modelled from the spec (claim C4's reference formula): the direct
pairwise acceleration `Σ_{j ≠ i} G · m_j · (x_j − x_i) /
(|x_j − x_i|² + softening²)^(3/2)` with unit masses, the 3/2 power taken
through the same square-root parameter as the code. -/
def specDirectGravityAcc (sqrtF : ℚ → ℚ) (positions : ℕ → Vec3)
    (count : ℕ) (g softening : ℚ) (i : ℕ) : Vec3 :=
  ((List.range count).filter (fun j => j ≠ i)).foldl
    (fun acc j =>
      let diff := positions j - positions i
      let d2 := Vec3.lengthSq diff + softening * softening
      acc + (g * 1 / (d2 * sqrtF d2)) • diff)
    Vec3.zero

/-- The acceleration a single retained leaf contributes to the θ = 0
traversal: zero for the querying particle itself, for a leaf below the
mass threshold, or inside the 1e-8 distance guard, and the softened
inverse-square term otherwise. -/
def leafContrib (sqrtF : ℚ → ℚ) (soft_sq g : ℚ) (pos : Vec3) (pidx : ℕ)
    (d : Vec3 × ℚ × ℕ) : Vec3 :=
  if d.2.2 = pidx then Vec3.zero
  else if d.2.1 < 1/10000000000 then Vec3.zero
  else
    let diff := d.1 - pos
    let dist_sq := Vec3.lengthSq diff + soft_sq
    let dist := sqrtF dist_sq
    if dist > 1/100000000 then (g * d.2.1 / (dist_sq * dist)) • diff
    else Vec3.zero

/-- Two distinct particles on the x axis (the shallow octree witness). -/
def posC4 : ℕ → Vec3 := fun i => if i = 1 then ⟨1, 0, 0⟩ else Vec3.zero

/-- Three particles, the first two coincident: the configuration on which
the depth-capped octree insertion drops a particle. -/
def posC4bad : ℕ → Vec3 := fun i => if i = 2 then ⟨1, 0, 0⟩ else Vec3.zero

/-- The octree `build_octree(posC4, 2)` produces: a root with the two
particles in octants 6 and 7. -/
def treeC4 : OTree :=
  OTree.node ⟨-1/100, -1/100, -1/100⟩ ⟨101/100, 1/100, 1/100⟩ ⟨1/2, 0, 0⟩ 2
    OTree.empty OTree.empty OTree.empty OTree.empty OTree.empty OTree.empty
    (OTree.leaf ⟨-1/100, 0, 0⟩ ⟨1/2, 1/100, 1/100⟩ ⟨0, 0, 0⟩ 1 0)
    (OTree.leaf ⟨1/2, 0, 0⟩ ⟨101/100, 1/100, 1/100⟩ ⟨1, 0, 0⟩ 1 1)

/-- The subtree produced below the root when the coincident particle 1 is
inserted into the leaf of particle 0: a depth-capped chain in which
particle 1 is ultimately dropped. -/
def chainC4bad : OTree :=
  (OTree.insertGo 32 (OTree.leaf ⟨-1/100, 0, 0⟩ ⟨1/2, 1/100, 1/100⟩
    ⟨0, 0, 0⟩ 1 0) ⟨0, 0, 0⟩ 1 1).1

/-- The octree `build_octree(posC4bad, 3)` produces: the coincident pair
sits (as a chain) in octant 6 and particle 2 in octant 7. -/
def treeC4bad : OTree :=
  OTree.node ⟨-1/100, -1/100, -1/100⟩ ⟨101/100, 1/100, 1/100⟩ ⟨1/3, 0, 0⟩ 3
    OTree.empty OTree.empty OTree.empty OTree.empty OTree.empty OTree.empty
    chainC4bad
    (OTree.leaf ⟨1/2, 0, 0⟩ ⟨101/100, 1/100, 1/100⟩ ⟨1, 0, 0⟩ 1 2)

/-- GLSL-compatible `fract` from `math.rs`. -/
def fract (x : ℚ) : ℚ := x - ⌊x⌋

/-- `hash12` from `math.rs` (GLSL hash port), exact in ℚ. -/
def hash12 (x y : ℚ) : ℚ :=
  let p3x := fract (x * (1031/10000))
  let p3y := fract (y * (1031/10000))
  let p3z := fract (x * (1031/10000))
  let dot_val := p3x * (p3y + 3333/100) + p3y * (p3z + 3333/100)
    + p3z * (p3x + 3333/100)
  fract ((p3x + dot_val + (p3y + dot_val)) * (p3z + dot_val))

/-- Ceiling square root of a natural number, modelling
`(count as f32).sqrt().ceil() as usize` for the particle counts in use. -/
def ceilSqrtNat (n : ℕ) : ℕ :=
  let r := natSqrtDown n n
  if r * r = n then r else r + 1

/-- The `f32` value of `std::f32::consts::TAU` (2π rounded to f32),
as an exact rational. -/
def tauF32 : ℚ := 13176795/2097152

/-- The spiral-ring layout shared by `Solver::new` and
`Solver::reinitialize`: `t = i/count`, `angle = t·TAU·20`,
`r = 0.5 + t·1.5`, position `(cos(angle)·r, (t−0.5)·2, sin(angle)·r)`. -/
def spiralPos (cosF sinF : ℚ → ℚ) (i count : ℕ) : Vec3 :=
  let t : ℚ := (i : ℚ) / (count : ℚ)
  let angle := t * tauF32 * 20
  let r := 1/2 + t * (3/2)
  ⟨cosF angle * r, (t - 1/2) * 2, sinF angle * r⟩

/-- The solver state (`Solver` in `solver.rs`): particle storage, the
ephemeral contact list, the built grid, and the configuration fields the
embedded code paths read (`shape_params.speed_multiplier` and the
relevant `PhysicsConfig` entries). -/
structure Solver where
  particles : ParticleSet
  contacts : List ContactConstraint
  grid : BuiltGrid
  speedMultiplier : ℚ
  substeps : ℕ
  solverIterations : ℕ
  collisionsEnabled : Bool
  boundaryRadius : ℚ
  friction : ℚ

/-- `Solver::new(particle_count)`: default configuration, empty contact
list, fresh grid, and the spiral-ring particle layout with
`hash12`-derived radius and hash. -/
def Solver.new (cosF sinF : ℚ → ℚ) (particle_count : ℕ) : Solver :=
  let base := ParticleSet.new particle_count
  let tex := ceilSqrtNat particle_count
  { particles := { base with
      position := fun i =>
        if i < particle_count then spiralPos cosF sinF i particle_count
        else base.position i
      radius := fun i =>
        if i < particle_count then
          1/20 + hash12 ((i % tex : ℕ) / (tex : ℚ)) ((i / tex : ℕ) / (tex : ℚ))
            * (1/20)
        else base.radius i
      hash := fun i =>
        if i < particle_count then
          hash12 ((i % tex : ℕ) / (tex : ℚ)) ((i / tex : ℕ) / (tex : ℚ))
        else base.hash i }
    contacts := []
    grid := {
      invCellSize := 5
      tableSize := 131072
      cellCount := fun _ => 0
      cellStart := fun _ => 0
      sortedIndices := fun _ => 0 }
    speedMultiplier := 1
    substeps := 4
    solverIterations := 3
    collisionsEnabled := false
    boundaryRadius := 9/2
    friction := 3/10 }

/-- `Solver::reinitialize(seed)`: reset positions to the spiral-ring
layout and zero velocities; the seed is unused, as in the source
(`_seed`), and nothing else is touched. -/
def Solver.reinitialize (cosF sinF : ℚ → ℚ) (s : Solver) (seed : ℕ) :
    Solver :=
  { s with particles := { s.particles with
      position := fun i =>
        if i < s.particles.count then
          spiralPos cosF sinF i s.particles.count
        else s.particles.position i
      velocity := fun i =>
        if i < s.particles.count then Vec3.zero
        else s.particles.velocity i } }

/-- `Solver::step(dt, time)`: the early-out guard on
`|dt * speed_multiplier| < 1e-9`.  The remainder of the pipeline (shape
targets, force cosmetics, substeps) is abstracted as `rest`, which the
theorems quantify over. -/
def Solver.step (rest : Solver → ℚ → ℚ → Solver) (s : Solver)
    (dt time : ℚ) : Solver :=
  let sim_dt := dt * s.speedMultiplier
  if |sim_dt| < 1/1000000000 then s else rest s dt time

/-- The correction-reset at the top of each solver iteration in
`Solver::step` (XPBD path). -/
def zeroCorrections (ps : ParticleSet) : ParticleSet :=
  { ps with
    corrections := fun i =>
      if i < ps.count then Vec3.zero else ps.corrections i
    correction_counts := fun i =>
      if i < ps.count then 0 else ps.correction_counts i }

/-- `Solver::solve_boundary_constraint`: push predicted positions back
inside the boundary sphere, accumulating Jacobi corrections. -/
def solveBoundaryConstraint (sqrtF : ℚ → ℚ) (boundary : ℚ)
    (ps : ParticleSet) : ParticleSet :=
  { ps with
    corrections := fun i =>
      if i < ps.count ∧ Vec3.length sqrtF (ps.predicted i) > boundary then
        ps.corrections i +
          (boundary - Vec3.length sqrtF (ps.predicted i)) •
            (ps.predicted i / Vec3.length sqrtF (ps.predicted i))
      else ps.corrections i
    correction_counts := fun i =>
      if i < ps.count ∧ Vec3.length sqrtF (ps.predicted i) > boundary then
        ps.correction_counts i + 1
      else ps.correction_counts i }

/-- The averaged-correction application at the end of each solver
iteration in `Solver::step`: particles with a positive correction count
receive `corrections[i] / correction_counts[i]`. -/
def applyAveragedCorrections (ps : ParticleSet) : ParticleSet :=
  { ps with
    predicted := fun i =>
      if i < ps.count ∧ 0 < ps.correction_counts i then
        ps.predicted i + ps.corrections i / (ps.correction_counts i : ℚ)
      else ps.predicted i }

/-- The constraint-solving middle of one solver iteration (between the
correction reset and the averaged application): the contact solve from
`contact.rs` followed by the boundary constraint. -/
def solverIterationPostSolve (sqrtF : ℚ → ℚ)
    (contacts : List ContactConstraint) (friction dt boundary : ℚ)
    (previous : ℕ → Vec3) (ps : ParticleSet) : ParticleSet :=
  let ps1 := zeroCorrections ps
  let buf := solveContacts sqrtF contacts ps1.predicted previous
    ps1.inv_mass ps1.corrections ps1.correction_counts friction dt
  let ps2 := { ps1 with corrections := buf.1, correction_counts := buf.2 }
  solveBoundaryConstraint sqrtF boundary ps2

/-- One full solver iteration of the XPBD path of `Solver::step`:
reset corrections, solve constraints, apply averaged corrections. -/
def solverIterationStep (sqrtF : ℚ → ℚ)
    (contacts : List ContactConstraint) (friction dt boundary : ℚ)
    (previous : ℕ → Vec3) (ps : ParticleSet) : ParticleSet :=
  applyAveragedCorrections
    (solverIterationPostSolve sqrtF contacts friction dt boundary previous ps)

/-- Concrete particle set used by several witnesses: two particles whose
predicted positions are 0.1 apart along the x axis. -/
def psPair : ParticleSet :=
  { ParticleSet.new 2 with
    predicted := fun i => if i = 1 then ⟨1/10, 0, 0⟩ else Vec3.zero }

/-- The `f32` value of `std::f32::consts::PI`, as an exact rational. -/
def piF32 : ℚ := 13176795/4194304

/-- Positions of the spec's contact-separation scenario: two spheres of
radius 0.1 with centres 0.1 apart on the x axis. -/
def posC6 : ℕ → Vec3 := fun i => if i = 1 then ⟨1/10, 0, 0⟩ else Vec3.zero

/-- The grid built over `posC6` with cell size 0.2 (inverse 5) and a
16-entry hash table. -/
def gridC6 : BuiltGrid := buildGrid 5 16 posC6 2

/-- Modelled from the spec (claim C3's reading of pass 1): the density of
a fluid particle as "the poly6 sum over fluid/gas neighbours within the
smoothing radius only" — non-fluid neighbours excluded. -/
def specFluidOnlyDensity (sqrtF : ℚ → ℚ) (piQ h : ℚ) (predicted : ℕ → Vec3)
    (phase : ℕ → Phase) (query : Vec3 → List ℕ) (i : ℕ) : ℚ :=
  ((query (predicted i)).map (fun j =>
    if isFluidPhase (phase j) = true ∧
        Vec3.length sqrtF (predicted i - predicted j) < h then
      poly6Kernel piQ (Vec3.length sqrtF (predicted i - predicted j)) h
    else 0)).sum

/-- A Fluid particle at the origin with a Static neighbour one unit away:
the configuration separating pass 1's actual density sum from the spec's
fluid-only sum. -/
def psC3 : ParticleSet :=
  { ParticleSet.new 2 with
    phase := fun i => if i = 0 then Phase.Fluid else Phase.Static
    predicted := fun i => if i = 1 then ⟨1, 0, 0⟩ else Vec3.zero }

/-- `psPair` with particle 0 made static (`inv_mass = 0`). -/
def psStaticPair : ParticleSet :=
  { psPair with inv_mass := fun i => if i = 0 then 0 else 1 }

/-- Two Fluid-phase particles one unit apart, particle 0 static
(`inv_mass = 0`): the configuration on which the density solver moves a
zero-inverse-mass particle. -/
def psDensityStatic : ParticleSet :=
  { ParticleSet.new 2 with
    inv_mass := fun i => if i = 0 then 0 else 1
    phase := fun _ => Phase.Fluid
    predicted := fun i => if i = 1 then ⟨1, 0, 0⟩ else Vec3.zero }

section Theorems

namespace Vec3

@[simp] theorem add_x (a b : Vec3) : (a + b).x = a.x + b.x := rfl
@[simp] theorem add_y (a b : Vec3) : (a + b).y = a.y + b.y := rfl
@[simp] theorem add_z (a b : Vec3) : (a + b).z = a.z + b.z := rfl
@[simp] theorem sub_x (a b : Vec3) : (a - b).x = a.x - b.x := rfl
@[simp] theorem sub_y (a b : Vec3) : (a - b).y = a.y - b.y := rfl
@[simp] theorem sub_z (a b : Vec3) : (a - b).z = a.z - b.z := rfl
@[simp] theorem smul_x (q : ℚ) (v : Vec3) : (q • v).x = q * v.x := rfl
@[simp] theorem smul_y (q : ℚ) (v : Vec3) : (q • v).y = q * v.y := rfl
@[simp] theorem smul_z (q : ℚ) (v : Vec3) : (q • v).z = q * v.z := rfl
@[simp] theorem zero_def : zero = ⟨0, 0, 0⟩ := rfl

theorem ext_iff {a b : Vec3} : a = b ↔ a.x = b.x ∧ a.y = b.y ∧ a.z = b.z := by
  cases a; cases b; simp [Vec3.mk.injEq]

@[simp] theorem smul_zero_vec (q : ℚ) : q • zero = zero := by
  simp [zero, ext_iff]

@[simp] theorem zero_smul_vec (v : Vec3) : (0 : ℚ) • v = zero := by
  simp [zero, ext_iff]

@[simp] theorem add_zero_vec (v : Vec3) : v + zero = v := by
  simp [zero, ext_iff]

@[simp] theorem zero_add_vec (v : Vec3) : zero + v = v := by
  simp [zero, ext_iff]

@[simp] theorem smul_mk_zero (q : ℚ) : q • (⟨0, 0, 0⟩ : Vec3) = ⟨0, 0, 0⟩ := by
  simp [ext_iff]

@[simp] theorem add_mk_zero (v : Vec3) : v + (⟨0, 0, 0⟩ : Vec3) = v := by
  simp [ext_iff]

@[simp] theorem sub_mk_zero (v : Vec3) : v - (⟨0, 0, 0⟩ : Vec3) = v := by
  simp [ext_iff]

@[simp] theorem mk_add_mk (a b c d e f : ℚ) :
    (⟨a, b, c⟩ : Vec3) + ⟨d, e, f⟩ = ⟨a + d, b + e, c + f⟩ := rfl

@[simp] theorem mk_sub_mk (a b c d e f : ℚ) :
    (⟨a, b, c⟩ : Vec3) - ⟨d, e, f⟩ = ⟨a - d, b - e, c - f⟩ := rfl

@[simp] theorem smul_mk (q a b c : ℚ) :
    q • (⟨a, b, c⟩ : Vec3) = ⟨q * a, q * b, q * c⟩ := rfl

@[simp] theorem mk_div (a b c q : ℚ) :
    (⟨a, b, c⟩ : Vec3) / q = ⟨a / q, b / q, c / q⟩ := rfl

@[simp] theorem dot_mk (a b c d e f : ℚ) :
    dot ⟨a, b, c⟩ ⟨d, e, f⟩ = a * d + b * e + c * f := rfl

@[simp] theorem lengthSq_mk (a b c : ℚ) :
    lengthSq ⟨a, b, c⟩ = a * a + b * b + c * c := rfl

theorem length_mk (sqrtF : ℚ → ℚ) (a b c : ℚ) :
    length sqrtF ⟨a, b, c⟩ = sqrtF (a * a + b * b + c * c) := rfl

end Vec3

@[simp] theorem ratSqrt_zero : ratSqrt 0 = 0 := by
  norm_num [ratSqrt]

@[simp] theorem ratSqrt_one : ratSqrt 1 = 1 := by
  norm_num [ratSqrt, natSqrtDown]

@[simp] theorem upd_same {α : Type} (f : ℕ → α) (k : ℕ) (v : α) :
    upd f k v k = v := by simp [upd]

theorem upd_ne {α : Type} (f : ℕ → α) (k : ℕ) (v : α) {i : ℕ} (h : i ≠ k) :
    upd f k v i = f i := by simp [upd, h]

theorem upd_self {α : Type} (f : ℕ → α) (k : ℕ) : upd f k (f k) = f := by
  funext i
  by_cases h : i = k <;> simp [upd, h]

theorem upd_addsmul {g : ℕ → Vec3} {k p : ℕ} {w : ℚ} {v : Vec3}
    (hw : k = p → w = 0) : upd g k (g k + w • v) p = g p := by
  by_cases hp : p = k
  · subst hp
    rw [upd_same, hw rfl]
    simp
  · exact upd_ne _ _ _ hp

theorem upd_subsmul {g : ℕ → Vec3} {k p : ℕ} {w : ℚ} {v : Vec3}
    (hw : k = p → w = 0) : upd g k (g k - w • v) p = g p := by
  by_cases hp : p = k
  · subst hp
    rw [upd_same, hw rfl]
    simp [sub_eq_add_neg]
  · exact upd_ne _ _ _ hp

/-- A single distance solve at rest length with zero accumulated
multiplier leaves the whole corrections array unchanged. -/
theorem solveDistanceOne_at_rest (sqrtF : ℚ → ℚ) (dt : ℚ)
    (ps : ParticleSet) (c : DistanceConstraint)
    (hrest : sqrtF (Vec3.lengthSq (ps.predicted c.i - ps.predicted c.j)) =
      c.rest_length)
    (hlam : c.lambda = 0) :
    (solveDistanceOne sqrtF dt ps c).2.corrections = ps.corrections := by
  unfold solveDistanceOne
  dsimp only
  split_ifs with hw hd
  · rfl
  · rfl
  · have hcval : Vec3.length sqrtF (ps.predicted c.i - ps.predicted c.j)
        - c.rest_length = 0 := by
      simp [Vec3.length, hrest]
    simp [hlam, hcval, upd_self, sub_eq_zero.mp hcval]

/-- A particle with zero inverse mass receives no correction from a single
distance-constraint solve, and the solve leaves `inv_mass` untouched. -/
theorem solveDistanceOne_static (sqrtF : ℚ → ℚ) (dt : ℚ) (ps : ParticleSet)
    (c : DistanceConstraint) (p : ℕ) (hp : ps.inv_mass p = 0) :
    (solveDistanceOne sqrtF dt ps c).2.corrections p = ps.corrections p ∧
    (solveDistanceOne sqrtF dt ps c).2.inv_mass = ps.inv_mass := by
  unfold solveDistanceOne
  dsimp only
  split_ifs with hw hd
  · exact ⟨rfl, rfl⟩
  · exact ⟨rfl, rfl⟩
  · refine ⟨?_, rfl⟩
    show upd _ c.j _ p = ps.corrections p
    rw [upd_subsmul (fun h => by rw [← h] at hp; exact hp)]
    exact upd_addsmul (fun h => by rw [← h] at hp; exact hp)

/-- A particle with zero inverse mass receives no correction from
`solve_distance_constraints`, for any constraint list. -/
theorem solveDistanceConstraints_static (sqrtF : ℚ → ℚ) (dt : ℚ)
    (cs : List DistanceConstraint) (ps : ParticleSet) (p : ℕ)
    (hp : ps.inv_mass p = 0) :
    (solveDistanceConstraints sqrtF cs ps dt).2.corrections p =
      ps.corrections p := by
  suffices h : ∀ (cs : List DistanceConstraint) (acc : List DistanceConstraint)
      (s : ParticleSet), s.inv_mass p = 0 →
      (cs.foldl (fun acc c =>
          let r := solveDistanceOne sqrtF dt acc.2 c
          (acc.1 ++ [r.1], r.2)) (acc, s)).2.corrections p = s.corrections p by
    exact h cs [] ps hp
  intro cs
  induction cs with
  | nil => intro acc s hs; rfl
  | cons c cs ih =>
    intro acc s hs
    have h1 := solveDistanceOne_static sqrtF dt s c p hs
    have h2 : (solveDistanceOne sqrtF dt s c).2.inv_mass p = 0 := by
      rw [h1.2]; exact hs
    simpa [List.foldl_cons, ih _ _ h2] using h1.1

/-- Claim C7: a distance constraint whose two particles sit exactly at its
rest length, with zero accumulated Lagrange multiplier, produces zero
correction for both particles under `solve_distance_constraints`, for
every compliance (including 0) and every positive `dt`. -/
theorem C7_rest_length_invariance (sqrtF : ℚ → ℚ) (dt : ℚ) (hdt : 0 < dt)
    (ps : ParticleSet) (c : DistanceConstraint)
    (hrest : sqrtF (Vec3.lengthSq (ps.predicted c.i - ps.predicted c.j)) =
      c.rest_length)
    (hlam : c.lambda = 0) :
    (solveDistanceConstraints sqrtF [c] ps dt).2.corrections c.i =
      ps.corrections c.i ∧
    (solveDistanceConstraints sqrtF [c] ps dt).2.corrections c.j =
      ps.corrections c.j := by
  have h : (solveDistanceConstraints sqrtF [c] ps dt).2.corrections =
      ps.corrections := by
    simpa [solveDistanceConstraints] using
      solveDistanceOne_at_rest sqrtF dt ps c hrest hlam
  exact ⟨congrFun h c.i, congrFun h c.j⟩

/-- Witness for claim C7, at rest length 0.1, compliance 0.001, dt 1/60. -/
theorem C7_rest_length_invariance_witness :
    (solveDistanceConstraints ratSqrt [⟨0, 1, 1/10, 1/1000, 0⟩] psPair
        (1/60)).2.corrections 0 = psPair.corrections 0 ∧
    (solveDistanceConstraints ratSqrt [⟨0, 1, 1/10, 1/1000, 0⟩] psPair
        (1/60)).2.corrections 1 = psPair.corrections 1 :=
  C7_rest_length_invariance ratSqrt (1/60) (by norm_num) psPair
    ⟨0, 1, 1/10, 1/1000, 0⟩
    (by norm_num [psPair, ParticleSet.new, ratSqrt, natSqrtDown,
      Vec3.lengthSq, Vec3.dot, Vec3.zero]) rfl

/-- Claim C9: if `|dt * speed_multiplier| < 1e-9`, `Solver::step` returns
immediately and the entire solver state is unchanged, for every value of
`time` and whatever the rest of the pipeline would do. -/
theorem C9_step_early_out (rest : Solver → ℚ → ℚ → Solver) (s : Solver)
    (dt time : ℚ) (h : |dt * s.speedMultiplier| < 1/1000000000) :
    Solver.step rest s dt time = s := by
  unfold Solver.step
  dsimp only
  rw [if_pos h]

/-- Witness for claim C9: a non-trivial `rest`, dt = 1e-10, unit speed
multiplier. -/
theorem C9_step_early_out_witness :
    Solver.step (fun s _ _ => { s with speedMultiplier := 2 })
        (Solver.new (fun _ => 0) (fun _ => 0) 3) (1/10000000000) 5 =
      Solver.new (fun _ => 0) (fun _ => 0) 3 :=
  C9_step_early_out _ _ _ 5 (by norm_num [Solver.new, abs_lt])

/-- Claim C8: `Solver::reinitialize(seed)` sets every particle's position
to the default spiral-ring layout (the same `spiralPos` formula used by
`Solver::new`), zeroes every velocity, and leaves every other per-particle
field (inv_mass, radius, hash, phase, charge, target_pos, target_weight,
predicted, corrections, correction_counts, lambda, density, vorticity),
the contact list, the grid and the configuration unchanged, for every
seed. -/
theorem C8_reinitialize_spiral (cosF sinF : ℚ → ℚ) (s : Solver) (seed : ℕ) :
    (∀ i, i < s.particles.count →
      (Solver.reinitialize cosF sinF s seed).particles.position i =
        spiralPos cosF sinF i s.particles.count ∧
      (Solver.reinitialize cosF sinF s seed).particles.velocity i =
        Vec3.zero) ∧
    (Solver.reinitialize cosF sinF s seed).particles.count =
      s.particles.count ∧
    (Solver.reinitialize cosF sinF s seed).particles.inv_mass =
      s.particles.inv_mass ∧
    (Solver.reinitialize cosF sinF s seed).particles.radius =
      s.particles.radius ∧
    (Solver.reinitialize cosF sinF s seed).particles.hash =
      s.particles.hash ∧
    (Solver.reinitialize cosF sinF s seed).particles.phase =
      s.particles.phase ∧
    (Solver.reinitialize cosF sinF s seed).particles.charge =
      s.particles.charge ∧
    (Solver.reinitialize cosF sinF s seed).particles.target_pos =
      s.particles.target_pos ∧
    (Solver.reinitialize cosF sinF s seed).particles.target_weight =
      s.particles.target_weight ∧
    (Solver.reinitialize cosF sinF s seed).particles.predicted =
      s.particles.predicted ∧
    (Solver.reinitialize cosF sinF s seed).particles.corrections =
      s.particles.corrections ∧
    (Solver.reinitialize cosF sinF s seed).particles.correction_counts =
      s.particles.correction_counts ∧
    (Solver.reinitialize cosF sinF s seed).particles.lambda =
      s.particles.lambda ∧
    (Solver.reinitialize cosF sinF s seed).particles.density =
      s.particles.density ∧
    (Solver.reinitialize cosF sinF s seed).particles.vorticity =
      s.particles.vorticity ∧
    (Solver.reinitialize cosF sinF s seed).contacts = s.contacts ∧
    (Solver.reinitialize cosF sinF s seed).grid = s.grid ∧
    (Solver.reinitialize cosF sinF s seed).speedMultiplier =
      s.speedMultiplier ∧
    (Solver.reinitialize cosF sinF s seed).collisionsEnabled =
      s.collisionsEnabled ∧
    (Solver.reinitialize cosF sinF s seed).boundaryRadius =
      s.boundaryRadius ∧
    (∀ n i, i < n →
      (Solver.new cosF sinF n).particles.position i =
        spiralPos cosF sinF i n) := by
  refine ⟨fun i hi => ⟨?_, ?_⟩, rfl, rfl, rfl, rfl, rfl, rfl, rfl, rfl, rfl,
    rfl, rfl, rfl, rfl, rfl, rfl, rfl, rfl, rfl, rfl, fun n i hi => ?_⟩
  · simp [Solver.reinitialize, hi]
  · simp [Solver.reinitialize, hi]
  · simp [Solver.new, hi]

/-- Witness for claim C8, on a 2-particle solver with seed 7. -/
theorem C8_reinitialize_spiral_witness :
    (Solver.reinitialize (fun _ => 1) (fun _ => 0)
        (Solver.new (fun _ => 1) (fun _ => 0) 2) 7).particles.position 1 =
      spiralPos (fun _ => 1) (fun _ => 0) 1 2 ∧
    (Solver.reinitialize (fun _ => 1) (fun _ => 0)
        (Solver.new (fun _ => 1) (fun _ => 0) 2) 7).particles.velocity 1 =
      Vec3.zero ∧
    (Solver.reinitialize (fun _ => 1) (fun _ => 0)
        (Solver.new (fun _ => 1) (fun _ => 0) 2) 7).particles.radius =
      (Solver.new (fun _ => 1) (fun _ => 0) 2).particles.radius := by
  have h := C8_reinitialize_spiral (fun _ => 1) (fun _ => 0)
    (Solver.new (fun _ => 1) (fun _ => 0) 2) 7
  have h1 := h.1 1 (by norm_num [Solver.new, ParticleSet.new])
  exact ⟨h1.1, h1.2, h.2.2.2.1⟩

/-- Claim C5: in the XPBD path of `Solver::step`, each solver iteration
first zeroes `corrections[i]` and `correction_counts[i]` for every
particle; the constraint solves leave `predicted` untouched; and the
application step adds exactly `corrections[i] / correction_counts[i]` to
`predicted[i]` when `correction_counts[i] > 0` and leaves `predicted[i]`
unchanged when `correction_counts[i] = 0`. -/
theorem C5_jacobi_averaging (sqrtF : ℚ → ℚ)
    (contacts : List ContactConstraint) (friction dt boundary : ℚ)
    (previous : ℕ → Vec3) (ps : ParticleSet) (i : ℕ) (hi : i < ps.count) :
    (zeroCorrections ps).corrections i = Vec3.zero ∧
    (zeroCorrections ps).correction_counts i = 0 ∧
    (solverIterationPostSolve sqrtF contacts friction dt boundary previous
      ps).predicted i = ps.predicted i ∧
    (solverIterationStep sqrtF contacts friction dt boundary previous
        ps).predicted i =
      (if 0 < (solverIterationPostSolve sqrtF contacts friction dt boundary
          previous ps).correction_counts i then
        ps.predicted i +
          (solverIterationPostSolve sqrtF contacts friction dt boundary
            previous ps).corrections i /
          ((solverIterationPostSolve sqrtF contacts friction dt boundary
            previous ps).correction_counts i : ℚ)
      else ps.predicted i) := by
  have hz1 : (zeroCorrections ps).corrections i = Vec3.zero := by
    simp [zeroCorrections, hi]
  have hz2 : (zeroCorrections ps).correction_counts i = 0 := by
    simp [zeroCorrections, hi]
  have hpred : (solverIterationPostSolve sqrtF contacts friction dt boundary
      previous ps).predicted i = ps.predicted i := rfl
  have hcount : (solverIterationPostSolve sqrtF contacts friction dt boundary
      previous ps).count = ps.count := rfl
  refine ⟨hz1, hz2, hpred, ?_⟩
  unfold solverIterationStep applyAveragedCorrections
  dsimp only
  by_cases hc : 0 < (solverIterationPostSolve sqrtF contacts friction dt
      boundary previous ps).correction_counts i
  · rw [if_pos ⟨hi, hc⟩, if_pos hc, hpred]
  · rw [if_neg (fun hcon => hc hcon.2), if_neg hc]
    exact hpred

/-- Witness for claim C5: a two-particle state with one contact. -/
theorem C5_jacobi_averaging_witness :
    ((zeroCorrections psPair).corrections 0 = Vec3.zero ∧
    (zeroCorrections psPair).correction_counts 0 = 0 ∧
    (solverIterationPostSolve ratSqrt [⟨0, 1, ⟨1, 0, 0⟩, 1/10⟩] 0 (1/60)
      (9/2) (fun _ => Vec3.zero) psPair).predicted 0 = psPair.predicted 0 ∧
    (solverIterationStep ratSqrt [⟨0, 1, ⟨1, 0, 0⟩, 1/10⟩] 0 (1/60) (9/2)
        (fun _ => Vec3.zero) psPair).predicted 0 =
      (if 0 < (solverIterationPostSolve ratSqrt [⟨0, 1, ⟨1, 0, 0⟩, 1/10⟩] 0
          (1/60) (9/2) (fun _ => Vec3.zero) psPair).correction_counts 0 then
        psPair.predicted 0 +
          (solverIterationPostSolve ratSqrt [⟨0, 1, ⟨1, 0, 0⟩, 1/10⟩] 0
            (1/60) (9/2) (fun _ => Vec3.zero) psPair).corrections 0 /
          ((solverIterationPostSolve ratSqrt [⟨0, 1, ⟨1, 0, 0⟩, 1/10⟩] 0
            (1/60) (9/2) (fun _ => Vec3.zero) psPair).correction_counts 0 : ℚ)
      else psPair.predicted 0)) :=
  C5_jacobi_averaging ratSqrt [⟨0, 1, ⟨1, 0, 0⟩, 1/10⟩] 0 (1/60) (9/2)
    (fun _ => Vec3.zero) psPair 0 (by norm_num [psPair, ParticleSet.new])

/-- A particle with zero inverse mass receives no correction from a single
bending-constraint solve. -/
theorem solveBendingOne_static (sqrtF : ℚ → ℚ) (atan2F : ℚ → ℚ → ℚ) (dt : ℚ)
    (ps : ParticleSet) (c : BendingConstraint) (p : ℕ)
    (hp : ps.inv_mass p = 0) :
    (solveBendingOne sqrtF atan2F dt ps c).2.corrections p =
      ps.corrections p ∧
    (solveBendingOne sqrtF atan2F dt ps c).2.inv_mass = ps.inv_mass := by
  unfold solveBendingOne
  dsimp only
  split_ifs with h1 h2 h3 h4 h5
  · exact ⟨rfl, rfl⟩
  · exact ⟨rfl, rfl⟩
  · exact ⟨rfl, rfl⟩
  · exact ⟨rfl, rfl⟩
  · exact ⟨rfl, rfl⟩
  · refine ⟨?_, rfl⟩
    show upd _ c.j _ p = ps.corrections p
    rw [upd_addsmul (fun h => by rw [← h] at hp; rw [hp, mul_zero])]
    rw [upd_addsmul (fun h => by rw [← h] at hp; rw [hp, mul_zero])]
    rw [upd_addsmul (fun h => by rw [← h] at hp; rw [hp, mul_zero])]
    rw [upd_addsmul (fun h => by rw [← h] at hp; rw [hp, mul_zero])]

/-- A particle with zero inverse mass receives no correction from
`solve_bending_constraints`. -/
theorem solveBendingConstraints_static (sqrtF : ℚ → ℚ)
    (atan2F : ℚ → ℚ → ℚ) (dt : ℚ) (cs : List BendingConstraint)
    (ps : ParticleSet) (p : ℕ) (hp : ps.inv_mass p = 0) :
    (solveBendingConstraints sqrtF atan2F cs ps dt).2.corrections p =
      ps.corrections p := by
  suffices h : ∀ (cs : List BendingConstraint) (acc : List BendingConstraint)
      (s : ParticleSet), s.inv_mass p = 0 →
      (cs.foldl (fun acc c =>
          let r := solveBendingOne sqrtF atan2F dt acc.2 c
          (acc.1 ++ [r.1], r.2)) (acc, s)).2.corrections p = s.corrections p by
    exact h cs [] ps hp
  intro cs
  induction cs with
  | nil => intro acc s hs; rfl
  | cons c cs ih =>
    intro acc s hs
    have h1 := solveBendingOne_static sqrtF atan2F dt s c p hs
    have h2 : (solveBendingOne sqrtF atan2F dt s c).2.inv_mass p = 0 := by
      rw [h1.2]; exact hs
    simpa [List.foldl_cons, ih _ _ h2] using h1.1

/-- A particle with zero inverse mass receives no correction from a single
contact solve. -/
theorem solveContactOne_static (sqrtF : ℚ → ℚ) (predicted previous : ℕ → Vec3)
    (inv_mass : ℕ → ℚ) (friction dt : ℚ) (buf : (ℕ → Vec3) × (ℕ → ℕ))
    (c : ContactConstraint) (p : ℕ) (hp : inv_mass p = 0) :
    (solveContactOne sqrtF predicted previous inv_mass friction dt buf
      c).1 p = buf.1 p := by
  unfold solveContactOne
  dsimp only
  split_ifs with h1 h2 h3
  · rfl
  · show upd _ c.j _ p = buf.1 p
    rw [upd_addsmul (fun h => by
      rw [← h] at hp; rw [hp, mul_zero, zero_div])]
    rw [upd_subsmul (fun h => by
      rw [← h] at hp; rw [hp, mul_zero, zero_div])]
    rw [upd_addsmul (fun h => by rw [← h] at hp; exact hp)]
    exact upd_subsmul (fun h => by rw [← h] at hp; exact hp)
  · show upd _ c.j _ p = buf.1 p
    rw [upd_addsmul (fun h => by rw [← h] at hp; exact hp)]
    exact upd_subsmul (fun h => by rw [← h] at hp; exact hp)
  · show upd _ c.j _ p = buf.1 p
    rw [upd_addsmul (fun h => by rw [← h] at hp; exact hp)]
    exact upd_subsmul (fun h => by rw [← h] at hp; exact hp)

/-- A particle with zero inverse mass receives no correction from
`solve_contacts`, for any contact list. -/
theorem solveContacts_static (sqrtF : ℚ → ℚ) (contacts : List ContactConstraint)
    (predicted previous : ℕ → Vec3) (inv_mass : ℕ → ℚ)
    (corrections : ℕ → Vec3) (correction_counts : ℕ → ℕ) (friction dt : ℚ)
    (p : ℕ) (hp : inv_mass p = 0) :
    (solveContacts sqrtF contacts predicted previous inv_mass corrections
      correction_counts friction dt).1 p = corrections p := by
  unfold solveContacts
  suffices h : ∀ (cs : List ContactConstraint) (buf : (ℕ → Vec3) × (ℕ → ℕ)),
      (cs.foldl (solveContactOne sqrtF predicted previous inv_mass friction dt)
        buf).1 p = buf.1 p by
    exact h contacts (corrections, correction_counts)
  intro cs
  induction cs with
  | nil => intro buf; rfl
  | cons c cs ih =>
    intro buf
    rw [List.foldl_cons, ih]
    exact solveContactOne_static sqrtF predicted previous inv_mass friction dt
      buf c p hp

/-- A particle with zero inverse mass is skipped by a shape-matching group
solve. -/
theorem solveShapeMatchGroup_static (ps : ParticleSet)
    (group : ShapeMatchGroup) (p : ℕ) (hp : ps.inv_mass p = 0) :
    (solveShapeMatchGroup ps group).corrections p = ps.corrections p ∧
    (solveShapeMatchGroup ps group).inv_mass = ps.inv_mass := by
  have key : ∀ (l : List (ℕ × Vec3)) (r : Mat3) (com : Vec3) (stiff : ℚ)
      (s : ParticleSet), s.inv_mass p = 0 →
      (l.foldl (fun (s : ParticleSet) ip =>
        if s.inv_mass ip.1 = 0 then s
        else
          let goal := Mat3.mulVec r ip.2 + com
          let correction := stiff • (goal - s.predicted ip.1)
          { s with
            corrections := upd s.corrections ip.1
              (s.corrections ip.1 + correction),
            correction_counts := upd s.correction_counts ip.1
              (s.correction_counts ip.1 + 1) }) s).corrections p =
        s.corrections p ∧
      (l.foldl (fun (s : ParticleSet) ip =>
        if s.inv_mass ip.1 = 0 then s
        else
          let goal := Mat3.mulVec r ip.2 + com
          let correction := stiff • (goal - s.predicted ip.1)
          { s with
            corrections := upd s.corrections ip.1
              (s.corrections ip.1 + correction),
            correction_counts := upd s.correction_counts ip.1
              (s.correction_counts ip.1 + 1) }) s).inv_mass = s.inv_mass := by
    intro l
    induction l with
    | nil => intro r com stiff s hs; exact ⟨rfl, rfl⟩
    | cons ip l ih =>
      intro r com stiff s hs
      rw [List.foldl_cons]
      by_cases hm : s.inv_mass ip.1 = 0
      · simp only [hm, if_pos]
        exact ih r com stiff s hs
      · simp only [hm, if_neg, if_false]
        have hne : ip.1 ≠ p := fun h => hm (h ▸ hs)
        have := ih r com stiff
          { s with
            corrections := upd s.corrections ip.1
              (s.corrections ip.1 + stiff • (Mat3.mulVec r ip.2 + com
                - s.predicted ip.1)),
            correction_counts := upd s.correction_counts ip.1
              (s.correction_counts ip.1 + 1) } hs
        refine ⟨?_, this.2⟩
        rw [this.1]
        exact upd_ne _ _ _ (fun h => hne h.symm)
  unfold solveShapeMatchGroup
  dsimp only
  split_ifs with h1 h2
  · exact ⟨rfl, rfl⟩
  · exact ⟨rfl, rfl⟩
  · exact key _ _ _ _ ps hp

/-- A particle with zero inverse mass receives no correction from
`solve_shape_matching`, for any group list. -/
theorem solveShapeMatching_static (groups : List ShapeMatchGroup)
    (ps : ParticleSet) (p : ℕ) (hp : ps.inv_mass p = 0) :
    (solveShapeMatching groups ps).corrections p = ps.corrections p := by
  unfold solveShapeMatching
  induction groups generalizing ps with
  | nil => rfl
  | cons g gs ih =>
    rw [List.foldl_cons]
    have h1 := solveShapeMatchGroup_static ps g p hp
    have h2 : (solveShapeMatchGroup ps g).inv_mass p = 0 := by
      rw [h1.2]; exact hp
    rw [ih _ h2, h1.1]

/-- A particle whose phase is not Fluid/Gas is never a query origin in
`solve_density_constraints` and receives no correction from it. -/
theorem solveDensityConstraints_nonfluid (sqrtF : ℚ → ℚ) (piQ : ℚ)
    (ps : ParticleSet) (query : Vec3 → List ℕ) (rho0 h : ℚ) (tensile : Bool)
    (p : ℕ) (hp : isFluidPhase (ps.phase p) = false) :
    (solveDensityConstraints sqrtF piQ ps query rho0 h tensile).corrections p
      = ps.corrections p ∧
    (solveDensityConstraints sqrtF piQ ps query rho0 h tensile).density p
      = ps.density p ∧
    (solveDensityConstraints sqrtF piQ ps query rho0 h tensile).lambda p
      = ps.lambda p ∧
    ParticleSet.correction_counts
        (solveDensityConstraints sqrtF piQ ps query rho0 h tensile) p =
      ps.correction_counts p := by
  unfold solveDensityConstraints
  simp [hp]

/-- Claim C1, counterexample: particle 0 is static (`inv_mass = 0`) but
Fluid-phase; `solve_density_constraints` adds a non-zero correction to it
(the density solver never consults `inv_mass`). -/
theorem C1_static_immovability_counterexample :
    psDensityStatic.inv_mass 0 = 0 ∧
    (solveDensityConstraints ratSqrt piF32 psDensityStatic (fun _ => [0, 1])
      1 2 false).corrections 0 ≠ psDensityStatic.corrections 0 := by
  constructor
  · norm_num [psDensityStatic, ParticleSet.new]
  · simp only [solveDensityConstraints, densityPassDeltaP, densityPassGrad,
      densityPassRho, poly6Kernel, spikyGradient, isFluidPhase,
      psDensityStatic, ParticleSet.new, piF32,
      densityEpsilon, Vec3.length, Vec3.zero, List.foldl]
    norm_num [Vec3.ext_iff]

/-- Claim C1, amended: a particle `p` with `inv_mass[p] = 0` receives zero
accumulated correction from `solve_distance_constraints`,
`solve_bending_constraints`, `solve_contacts` and `solve_shape_matching`,
regardless of constraint topology and of the other particles' state;
`solve_density_constraints`, which never consults `inv_mass`, leaves
`corrections[p]` unchanged provided `p`'s phase is not Fluid and not Gas
(as a Fluid/Gas query origin, a zero-inverse-mass particle can be
corrected — see the counterexample). -/
theorem C1_static_immovability_amended :
    (∀ (sqrtF : ℚ → ℚ) (dt : ℚ) (cs : List DistanceConstraint)
      (ps : ParticleSet) (p : ℕ), ps.inv_mass p = 0 →
      (solveDistanceConstraints sqrtF cs ps dt).2.corrections p =
        ps.corrections p) ∧
    (∀ (sqrtF : ℚ → ℚ) (atan2F : ℚ → ℚ → ℚ) (dt : ℚ)
      (cs : List BendingConstraint) (ps : ParticleSet) (p : ℕ),
      ps.inv_mass p = 0 →
      (solveBendingConstraints sqrtF atan2F cs ps dt).2.corrections p =
        ps.corrections p) ∧
    (∀ (sqrtF : ℚ → ℚ) (contacts : List ContactConstraint)
      (predicted previous : ℕ → Vec3) (inv_mass : ℕ → ℚ)
      (corrections : ℕ → Vec3) (correction_counts : ℕ → ℕ)
      (friction dt : ℚ) (p : ℕ), inv_mass p = 0 →
      (solveContacts sqrtF contacts predicted previous inv_mass corrections
        correction_counts friction dt).1 p = corrections p) ∧
    (∀ (groups : List ShapeMatchGroup) (ps : ParticleSet) (p : ℕ),
      ps.inv_mass p = 0 →
      (solveShapeMatching groups ps).corrections p = ps.corrections p) ∧
    (∀ (sqrtF : ℚ → ℚ) (piQ : ℚ) (ps : ParticleSet) (query : Vec3 → List ℕ)
      (rho0 h : ℚ) (tensile : Bool) (p : ℕ), ps.inv_mass p = 0 →
      isFluidPhase (ps.phase p) = false →
      ParticleSet.corrections
          (solveDensityConstraints sqrtF piQ ps query rho0 h tensile) p =
        ps.corrections p) :=
  ⟨fun sqrtF dt cs ps p hp =>
      solveDistanceConstraints_static sqrtF dt cs ps p hp,
    fun sqrtF atan2F dt cs ps p hp =>
      solveBendingConstraints_static sqrtF atan2F dt cs ps p hp,
    fun sqrtF contacts pr pv im co cc f d p hp =>
      solveContacts_static sqrtF contacts pr pv im co cc f d p hp,
    fun groups ps p hp => solveShapeMatching_static groups ps p hp,
    fun sqrtF piQ ps query rho0 h tensile p _ hph =>
      (solveDensityConstraints_nonfluid sqrtF piQ ps query rho0 h tensile p
        hph).1⟩

/-- Witness for the amended claim C1: particle 0 of `psStaticPair` is
static and receives zero correction from each solver (density with a
Static-phase particle 0). -/
theorem C1_static_immovability_amended_witness :
    (solveDistanceConstraints ratSqrt [⟨0, 1, 1/5, 0, 0⟩] psStaticPair
      (1/60)).2.corrections 0 = psStaticPair.corrections 0 ∧
    (solveBendingConstraints ratSqrt (fun _ _ => 0)
      [⟨0, 1, 0, 1, 0, 0, 0⟩] psStaticPair (1/60)).2.corrections 0 =
      psStaticPair.corrections 0 ∧
    (solveContacts ratSqrt [⟨0, 1, ⟨1, 0, 0⟩, 1/10⟩] psStaticPair.predicted
      psStaticPair.position psStaticPair.inv_mass psStaticPair.corrections
      psStaticPair.correction_counts (3/10) (1/60)).1 0 =
      psStaticPair.corrections 0 ∧
    (solveShapeMatching [⟨[0, 1], [Vec3.zero, ⟨1/10, 0, 0⟩], Vec3.zero, 1⟩]
      psStaticPair).corrections 0 = psStaticPair.corrections 0 ∧
    (solveDensityConstraints ratSqrt piF32
      { psStaticPair with phase := fun i => if i = 0 then Phase.Static
          else Phase.Fluid }
      (fun _ => [0, 1]) 1000 (1/10) true).corrections 0 =
      ({ psStaticPair with phase := fun i => if i = 0 then Phase.Static
          else Phase.Fluid } : ParticleSet).corrections 0 := by
  refine ⟨C1_static_immovability_amended.1 ratSqrt (1/60) _ psStaticPair 0 rfl,
    C1_static_immovability_amended.2.1 ratSqrt (fun _ _ => 0) (1/60) _
      psStaticPair 0 rfl,
    C1_static_immovability_amended.2.2.1 ratSqrt _ _ _ _ _ _ (3/10) (1/60) 0
      rfl,
    C1_static_immovability_amended.2.2.2.1 _ psStaticPair 0 rfl,
    C1_static_immovability_amended.2.2.2.2 ratSqrt piF32 _ _ 1000 (1/10) true
      0 rfl rfl⟩

theorem foldl_ite_add_sum {M : Type} [AddCommMonoid M] (c : ℕ → Prop)
    [DecidablePred c] (g : ℕ → M) (l : List ℕ) (a : M) :
    l.foldl (fun acc j => if c j then acc + g j else acc) a =
      a + (l.map (fun j => if c j then g j else 0)).sum := by
  induction l generalizing a with
  | nil => simp
  | cons j l ih =>
    rw [List.foldl_cons, List.map_cons, List.sum_cons]
    by_cases h : c j
    · rw [if_pos h, if_pos h, ih, add_assoc]
    · rw [if_neg h, if_neg h, ih, zero_add]

theorem foldl_ite2_add_sum {M : Type} [AddCommMonoid M] (c1 c2 : ℕ → Prop)
    [DecidablePred c1] [DecidablePred c2] (g : ℕ → M) (l : List ℕ) (a : M) :
    l.foldl (fun acc j =>
        if c1 j then acc else if c2 j then acc else acc + g j) a =
      a + (l.map (fun j =>
        if c1 j then 0 else if c2 j then 0 else g j)).sum := by
  induction l generalizing a with
  | nil => simp
  | cons j l ih =>
    rw [List.foldl_cons, List.map_cons, List.sum_cons]
    by_cases h1 : c1 j
    · rw [if_pos h1, if_pos h1, ih, zero_add]
    · by_cases h2 : c2 j
      · rw [if_neg h1, if_neg h1, if_pos h2, if_pos h2, ih, zero_add]
      · rw [if_neg h1, if_neg h1, if_neg h2, if_neg h2, ih, add_assoc]

/-- Claim C3, amended: pass 1 of `solve_density_constraints` sums the
poly6 kernel over every grid-reported neighbour within the smoothing
radius, with no phase filter; pass 3 includes non-fluid neighbours in the
correction sum with their λ taken as 0 (the λ_i and tensile terms still
contribute for them); and non-fluid particles are skipped entirely as
query origins, all their solver fields staying unchanged. -/
theorem C3_density_phase_handling_amended (sqrtF : ℚ → ℚ) (piQ : ℚ)
    (ps : ParticleSet) (query : Vec3 → List ℕ) (rho0 h : ℚ) (tensile : Bool)
    (i p : ℕ) :
    (i < ps.count → isFluidPhase (ps.phase i) = true →
      (solveDensityConstraints sqrtF piQ ps query rho0 h tensile).density i =
        ((query (ps.predicted i)).map (fun j =>
          if Vec3.length sqrtF (ps.predicted i - ps.predicted j) < h then
            poly6Kernel piQ
              (Vec3.length sqrtF (ps.predicted i - ps.predicted j)) h
          else 0)).sum) ∧
    (i < ps.count → isFluidPhase (ps.phase i) = true →
      ParticleSet.corrections
            (solveDensityConstraints sqrtF piQ ps query rho0 h tensile) i =
        ps.corrections i + ((query (ps.predicted i)).map (fun j =>
          if j = i then 0
          else if Vec3.length sqrtF (ps.predicted i - ps.predicted j) ≥ h
            then 0
          else
            ((ParticleSet.lambda
            (solveDensityConstraints sqrtF piQ ps query rho0 h tensile) i +
              (if isFluidPhase (ps.phase j) then
                ParticleSet.lambda
            (solveDensityConstraints sqrtF piQ ps query rho0 h tensile) j
                else 0) +
              (if tensile then
                -(1/1000) *
                  (poly6Kernel piQ
                      (Vec3.length sqrtF (ps.predicted i - ps.predicted j)) h /
                    (if tensile then poly6Kernel piQ (h * (3/10)) h else 1))
                    ^ 4
                else 0)) * (1 / rho0)) •
            spikyGradient piQ (ps.predicted i - ps.predicted j)
              (Vec3.length sqrtF (ps.predicted i - ps.predicted j)) h)).sum) ∧
    (isFluidPhase (ps.phase p) = false →
      (solveDensityConstraints sqrtF piQ ps query rho0 h tensile).density p =
        ps.density p ∧
      (solveDensityConstraints sqrtF piQ ps query rho0 h tensile).lambda p =
        ps.lambda p ∧
      ParticleSet.corrections
            (solveDensityConstraints sqrtF piQ ps query rho0 h tensile) p = ps.corrections p ∧
      ParticleSet.correction_counts
            (solveDensityConstraints sqrtF piQ ps query rho0 h tensile) p = ps.correction_counts p) := by
  refine ⟨?_, ?_, ?_⟩
  · intro hi hfl
    show (if i < ps.count ∧ isFluidPhase (ps.phase i) = true then
        densityPassRho sqrtF piQ h ps.predicted query i else ps.density i) = _
    rw [if_pos ⟨hi, hfl⟩]
    unfold densityPassRho
    rw [foldl_ite_add_sum
      (fun j => Vec3.length sqrtF (ps.predicted i - ps.predicted j) < h)
      (fun j => poly6Kernel piQ
        (Vec3.length sqrtF (ps.predicted i - ps.predicted j)) h), zero_add]
  · intro hi hfl
    show (if i < ps.count ∧ isFluidPhase (ps.phase i) = true then
        ps.corrections i + densityPassDeltaP sqrtF piQ h (1/rho0) _ tensile
          ps.predicted _ ps.phase _ query i
      else ps.corrections i) = _
    rw [if_pos ⟨hi, hfl⟩]
    unfold densityPassDeltaP
    rw [foldl_ite2_add_sum (fun j => j = i)
      (fun j => Vec3.length sqrtF (ps.predicted i - ps.predicted j) ≥ h),
      Vec3.zero_add_vec]
    rfl
  · intro hp
    exact ⟨(solveDensityConstraints_nonfluid sqrtF piQ ps query rho0 h tensile
        p hp).2.1,
      (solveDensityConstraints_nonfluid sqrtF piQ ps query rho0 h tensile
        p hp).2.2.1,
      (solveDensityConstraints_nonfluid sqrtF piQ ps query rho0 h tensile
        p hp).1,
      (solveDensityConstraints_nonfluid sqrtF piQ ps query rho0 h tensile
        p hp).2.2.2⟩

/-- Witness for the amended claim C3: the Fluid particle 0 of `psC3` gets
the unfiltered density sum; its Static neighbour 1 is untouched. -/
theorem C3_density_phase_handling_amended_witness :
    (solveDensityConstraints ratSqrt piF32 psC3 (fun _ => [0, 1]) 1 2
        false).density 0 =
      (([0, 1] : List ℕ).map (fun j =>
        if Vec3.length ratSqrt (psC3.predicted 0 - psC3.predicted j) < 2 then
          poly6Kernel piF32
            (Vec3.length ratSqrt (psC3.predicted 0 - psC3.predicted j)) 2
        else 0)).sum ∧
    (solveDensityConstraints ratSqrt piF32 psC3 (fun _ => [0, 1]) 1 2
        false).corrections 1 = psC3.corrections 1 := by
  have h := C3_density_phase_handling_amended ratSqrt piF32 psC3
    (fun _ => [0, 1]) 1 2 false 0 1
  exact ⟨h.1 (by norm_num [psC3, ParticleSet.new]) rfl, (h.2.2 rfl).2.2.1⟩

/-- Claim C3, counterexample: pass 1 does not exclude non-fluid
neighbours — on `psC3` the computed density of the fluid particle differs
from the spec's fluid-only sum (which would drop the Static neighbour). -/
theorem C3_density_phase_handling_counterexample :
    (solveDensityConstraints ratSqrt piF32 psC3 (fun _ => [0, 1]) 1 2
        false).density 0 ≠
      specFluidOnlyDensity ratSqrt piF32 2 psC3.predicted psC3.phase
        (fun _ => [0, 1]) 0 := by
  simp only [solveDensityConstraints, specFluidOnlyDensity, densityPassRho,
    poly6Kernel, isFluidPhase, psC3, ParticleSet.new, piF32, Vec3.length,
    Vec3.zero, List.foldl, List.map, List.sum_cons, List.sum_nil]
  norm_num

theorem bucketElems_succ (H : ℕ → ℕ) (k h : ℕ) :
    bucketElems H (k + 1) h =
      if H k = h then bucketElems H k h ++ [k] else bucketElems H k h := by
  unfold bucketElems
  rw [List.range_succ, List.filter_append]
  by_cases hk : H k = h
  · simp [hk]
  · simp [hk]

theorem bucketElems_mem {H : ℕ → ℕ} {k h i : ℕ} :
    i ∈ bucketElems H k h ↔ i < k ∧ H i = h := by
  simp [bucketElems, List.mem_filter, List.mem_range]

theorem bucketElems_length_mono (H : ℕ → ℕ) {k k' : ℕ} (hk : k ≤ k')
    (h : ℕ) : (bucketElems H k h).length ≤ (bucketElems H k' h).length := by
  induction k' with
  | zero =>
    have hk0 : k = 0 := Nat.le_zero.mp hk
    subst hk0
    exact le_refl _
  | succ k' ih =>
    rcases Nat.lt_or_ge k (k' + 1) with hlt | hge
    · have hk' : k ≤ k' := by omega
      calc (bucketElems H k h).length ≤ (bucketElems H k' h).length := ih hk'
        _ ≤ (bucketElems H (k' + 1) h).length := by
            rw [bucketElems_succ]
            by_cases hh : H k' = h <;> simp [hh]
    · have : k = k' + 1 := by omega
      subst this
      exact le_refl _

/-- The count pass of `build` computes exactly the bucket sizes. -/
theorem gridCellCount_eq (H : ℕ → ℕ) (n : ℕ) :
    gridCellCount H n = fun h => (bucketElems H n h).length := by
  unfold gridCellCount
  induction n with
  | zero => funext h; simp [bucketElems]
  | succ n ih =>
    funext h
    rw [List.range_succ, List.foldl_append, List.foldl_cons, List.foldl_nil,
      ih, bucketElems_succ]
    by_cases hh : H n = h
    · simp [upd, hh]
    · have hne : ¬(h = H n) := fun hc => hh hc.symm
      simp [upd, hh, hne]

/-- `cell_start` as a finite sum of bucket sizes. -/
theorem gridCellStart_eq_sum (cnt : ℕ → ℕ) (t : ℕ) :
    gridCellStart cnt t = ∑ h ∈ Finset.range t, cnt h := by
  induction t with
  | zero => rfl
  | succ t ih => rw [Finset.sum_range_succ, ← ih]; rfl

theorem gridCellStart_mono (cnt : ℕ → ℕ) {h h' : ℕ} (hle : h ≤ h') :
    gridCellStart cnt h ≤ gridCellStart cnt h' := by
  rw [gridCellStart_eq_sum, gridCellStart_eq_sum]
  exact Finset.sum_le_sum_of_subset (Finset.range_subset.mpr hle)

/-- Bucket `h`'s slice ends no later than bucket `h'` starts, for
`h < h'`. -/
theorem gridCellStart_chain (cnt : ℕ → ℕ) {h h' : ℕ} (hlt : h < h') :
    gridCellStart cnt h + cnt h ≤ gridCellStart cnt h' := by
  have h1 : gridCellStart cnt h + cnt h = gridCellStart cnt (h + 1) := rfl
  rw [h1]
  exact gridCellStart_mono cnt hlt

/-- The scatter pass invariant: after processing the first `k` particles,
the cursor array holds the per-bucket counts of the processed prefix, and
every bucket slice holds exactly the processed indices with that hash, in
order. -/
theorem gridScatter_invariant (H : ℕ → ℕ) (n k : ℕ) (hk : k ≤ n) :
    (∀ h, ((List.range k).foldl
        (fun (buf : (ℕ → ℕ) × (ℕ → ℕ)) i =>
          (upd buf.1 (gridCellStart (gridCellCount H n) (H i) + buf.2 (H i)) i,
            upd buf.2 (H i) (buf.2 (H i) + 1)))
        (fun _ => 0, fun _ => 0)).2 h = (bucketElems H k h).length) ∧
    (∀ h m, m < (bucketElems H k h).length →
      ((List.range k).foldl
        (fun (buf : (ℕ → ℕ) × (ℕ → ℕ)) i =>
          (upd buf.1 (gridCellStart (gridCellCount H n) (H i) + buf.2 (H i)) i,
            upd buf.2 (H i) (buf.2 (H i) + 1)))
        (fun _ => 0, fun _ => 0)).1
          (gridCellStart (gridCellCount H n) h + m) =
        (bucketElems H k h).getD m 0) := by
  induction k with
  | zero =>
    constructor
    · intro h; simp [bucketElems]
    · intro h m hm; simp [bucketElems] at hm
  | succ k ih =>
    have hk' : k ≤ n := by omega
    obtain ⟨ih2, ih1⟩ := ih hk'
    rw [List.range_succ, List.foldl_append, List.foldl_cons, List.foldl_nil]
    set start := gridCellStart (gridCellCount H n) with hstart
    set S := (List.range k).foldl
      (fun (buf : (ℕ → ℕ) × (ℕ → ℕ)) i =>
        (upd buf.1 (start (H i) + buf.2 (H i)) i,
          upd buf.2 (H i) (buf.2 (H i) + 1)))
      (fun _ => 0, fun _ => 0) with hS
    have hcnt_full : ∀ h, gridCellCount H n h = (bucketElems H n h).length :=
      fun h => congrFun (gridCellCount_eq H n) h
    have hlenk : (bucketElems H (k + 1) (H k)).length =
        (bucketElems H k (H k)).length + 1 := by
      rw [bucketElems_succ]
      simp
    constructor
    · intro h
      by_cases hh : h = H k
      · subst hh
        show upd S.2 (H k) (S.2 (H k) + 1) (H k) = _
        rw [upd_same, ih2, hlenk]
      · show upd S.2 (H k) (S.2 (H k) + 1) h = _
        rw [upd_ne _ _ _ hh, ih2, bucketElems_succ,
          if_neg (fun hc => hh hc.symm)]
    · intro h m hm
      have hwrite_lt : (bucketElems H k (H k)).length <
          (bucketElems H n (H k)).length := by
        have := bucketElems_length_mono H (show k + 1 ≤ n from hk) (H k)
        rw [hlenk] at this
        omega
      by_cases hh : h = H k
      · subst hh
        rw [hlenk] at hm
        rcases Nat.lt_or_ge m (bucketElems H k (H k)).length with hmlt | hmge
        · -- untouched earlier slot of the same bucket
          show upd S.1 (start (H k) + S.2 (H k)) k (start (H k) + m) = _
          rw [ih2, upd_ne _ _ _ (by omega), ih1 _ _ hmlt, bucketElems_succ,
            if_pos rfl]
          rw [List.getD_append _ _ _ _ hmlt]
        · -- the newly written slot
          have hmeq : m = (bucketElems H k (H k)).length := by omega
          subst hmeq
          show upd S.1 (start (H k) + S.2 (H k)) k (start (H k) + _) = _
          rw [ih2, upd_same, bucketElems_succ, if_pos rfl,
            List.getD_append_right _ _ _ _ (le_refl _), Nat.sub_self]
          rfl
      · -- a different bucket: the write lands strictly outside its slice
        have hmlen : m < (bucketElems H k h).length := by
          rw [bucketElems_succ, if_neg (fun hc => hh hc.symm)] at hm
          exact hm
        have hmtotal : m < (bucketElems H n h).length :=
          lt_of_lt_of_le hmlen (bucketElems_length_mono H hk' h)
        have hne : start h + m ≠ start (H k) + S.2 (H k) := by
          rw [ih2]
          rcases Nat.lt_or_ge h (H k) with hhlt | hhge
          · have hchain : start h + gridCellCount H n h ≤ start (H k) :=
              gridCellStart_chain _ hhlt
            rw [hcnt_full] at hchain
            omega
          · have hhlt' : H k < h := by omega
            have hchain : start (H k) + gridCellCount H n (H k) ≤ start h :=
              gridCellStart_chain _ hhlt'
            rw [hcnt_full] at hchain
            omega
        show upd S.1 (start (H k) + S.2 (H k)) k (start h + m) = _
        rw [upd_ne _ _ _ hne, ih1 _ _ hmlen, bucketElems_succ,
          if_neg (fun hc => hh hc.symm)]

/-- The cursor array after the full scatter holds the bucket sizes. -/
theorem buildGrid_cellCount (invC : ℚ) (T n : ℕ) (pos : ℕ → Vec3) (h : ℕ) :
    (buildGrid invC T pos n).cellCount h =
      (bucketElems (particleHash invC T pos) n h).length :=
  (gridScatter_invariant (particleHash invC T pos) n n (le_refl n)).1 h

theorem buildGrid_cellStart (invC : ℚ) (T n : ℕ) (pos : ℕ → Vec3) :
    (buildGrid invC T pos n).cellStart =
      gridCellStart (gridCellCount (particleHash invC T pos) n) := rfl

theorem buildGrid_sorted (invC : ℚ) (T n : ℕ) (pos : ℕ → Vec3) (h m : ℕ)
    (hm : m < (bucketElems (particleHash invC T pos) n h).length) :
    (buildGrid invC T pos n).sortedIndices
        ((buildGrid invC T pos n).cellStart h + m) =
      (bucketElems (particleHash invC T pos) n h).getD m 0 :=
  (gridScatter_invariant (particleHash invC T pos) n n (le_refl n)).2 h m hm

theorem map_getD_range (l : List ℕ) :
    (List.range l.length).map (fun m => l.getD m 0) = l := by
  apply List.ext_getElem
  · simp
  · intro i h1 h2
    simp [List.getElem_map, List.getElem_range, List.getD_eq_getElem?_getD,
      List.getElem?_eq_getElem h2]

/-- Correctness of the counting sort: the slice the grid serves for hash
`h` is exactly the list of particle indices hashing to `h`. -/
theorem buildGrid_bucket (invC : ℚ) (T n : ℕ) (pos : ℕ → Vec3) (h : ℕ) :
    (buildGrid invC T pos n).bucket h =
      bucketElems (particleHash invC T pos) n h := by
  unfold BuiltGrid.bucket
  rw [buildGrid_cellCount]
  have : ∀ m, m < (bucketElems (particleHash invC T pos) n h).length →
      (buildGrid invC T pos n).sortedIndices
          ((buildGrid invC T pos n).cellStart h + m) =
        (bucketElems (particleHash invC T pos) n h).getD m 0 :=
    fun m hm => buildGrid_sorted invC T n pos h m hm
  calc (List.range (bucketElems (particleHash invC T pos) n h).length).map
        (fun k => (buildGrid invC T pos n).sortedIndices
          ((buildGrid invC T pos n).cellStart h + k))
      = (List.range (bucketElems (particleHash invC T pos) n h).length).map
        (fun m => (bucketElems (particleHash invC T pos) n h).getD m 0) := by
        apply List.map_congr_left
        intro m hm
        exact this m (List.mem_range.mp hm)
    _ = bucketElems (particleHash invC T pos) n h := map_getD_range _

/-- Membership of the 27-cell query: any particle in a cell whose hash is
enumerated by an offset in {-1,0,1}³ is reported. -/
theorem queryNeighbors_mem (invC : ℚ) (T n : ℕ) (pos : ℕ → Vec3) (p : Vec3)
    (i : ℕ) (hi : i < n)
    (hx : |(cellCoords invC (pos i)).1 - (cellCoords invC p).1| ≤ 1)
    (hy : |(cellCoords invC (pos i)).2.1 - (cellCoords invC p).2.1| ≤ 1)
    (hz : |(cellCoords invC (pos i)).2.2 - (cellCoords invC p).2.2| ≤ 1) :
    i ∈ (buildGrid invC T pos n).queryNeighbors p := by
  unfold BuiltGrid.queryNeighbors
  dsimp only
  rw [abs_le] at hx hy hz
  have hmem : ∀ d : ℤ, -1 ≤ d → d ≤ 1 → d ∈ ([-1, 0, 1] : List ℤ) := by
    intro d h1 h2
    interval_cases d <;> simp
  rw [List.mem_flatMap]
  refine ⟨(cellCoords invC (pos i)).1 - (cellCoords invC p).1,
    hmem _ hx.1 hx.2, ?_⟩
  rw [List.mem_flatMap]
  refine ⟨(cellCoords invC (pos i)).2.1 - (cellCoords invC p).2.1,
    hmem _ hy.1 hy.2, ?_⟩
  rw [List.mem_flatMap]
  refine ⟨(cellCoords invC (pos i)).2.2 - (cellCoords invC p).2.2,
    hmem _ hz.1 hz.2, ?_⟩
  have e1 : (cellCoords invC p).1 +
      ((cellCoords invC (pos i)).1 - (cellCoords invC p).1) =
      (cellCoords invC (pos i)).1 := by ring
  have e2 : (cellCoords invC p).2.1 +
      ((cellCoords invC (pos i)).2.1 - (cellCoords invC p).2.1) =
      (cellCoords invC (pos i)).2.1 := by ring
  have e3 : (cellCoords invC p).2.2 +
      ((cellCoords invC (pos i)).2.2 - (cellCoords invC p).2.2) =
      (cellCoords invC (pos i)).2.2 := by ring
  have hg : (buildGrid invC T pos n).invCellSize = invC := rfl
  rw [hg, e1, e2, e3, buildGrid_bucket]
  exact bucketElems_mem.mpr ⟨hi, rfl⟩

/-- Claim C2: grid completeness — after `build(positions, n)`, a query at
`p` reports (at least once) every particle `i < n` whose cell coordinates
differ from `p`'s by at most 1 per axis; in particular a query at a
particle's own position always reports that particle. -/
theorem C2_grid_completeness (invC : ℚ) (T n : ℕ) (pos : ℕ → Vec3) :
    (∀ (p : Vec3) (i : ℕ), i < n →
      |(cellCoords invC (pos i)).1 - (cellCoords invC p).1| ≤ 1 →
      |(cellCoords invC (pos i)).2.1 - (cellCoords invC p).2.1| ≤ 1 →
      |(cellCoords invC (pos i)).2.2 - (cellCoords invC p).2.2| ≤ 1 →
      i ∈ (buildGrid invC T pos n).queryNeighbors p) ∧
    (∀ i : ℕ, i < n →
      i ∈ (buildGrid invC T pos n).queryNeighbors (pos i)) := by
  constructor
  · intro p i hi hx hy hz
    exact queryNeighbors_mem invC T n pos p i hi hx hy hz
  · intro i hi
    exact queryNeighbors_mem invC T n pos (pos i) i hi (by simp) (by simp)
      (by simp)

/-- Witness for claim C2: particle 1 of `posC6` is reported when querying
at its own position in `gridC6`. -/
theorem C2_grid_completeness_witness :
    (1 : ℕ) ∈ (buildGrid 5 16 posC6 2).queryNeighbors (posC6 1) :=
  (C2_grid_completeness 5 16 2 posC6).2 1 (by norm_num)

/-- The bucket sizes sum to the particle count when every hash lands
below the table size. -/
theorem sum_bucket_lengths (H : ℕ → ℕ) (n T : ℕ) (hH : ∀ i, i < n → H i < T) :
    ∑ h ∈ Finset.range T, (bucketElems H n h).length = n := by
  induction n with
  | zero => simp [bucketElems]
  | succ n ih =>
    have hH' : ∀ i, i < n → H i < T := fun i hi => hH i (by omega)
    have hsplit : ∀ h, (bucketElems H (n + 1) h).length =
        (bucketElems H n h).length + if H n = h then 1 else 0 := by
      intro h
      rw [bucketElems_succ]
      by_cases hh : H n = h <;> simp [hh]
    calc ∑ h ∈ Finset.range T, (bucketElems H (n + 1) h).length
        = ∑ h ∈ Finset.range T,
            ((bucketElems H n h).length + if H n = h then 1 else 0) :=
          Finset.sum_congr rfl (fun h _ => hsplit h)
      _ = (∑ h ∈ Finset.range T, (bucketElems H n h).length) +
            ∑ h ∈ Finset.range T, (if H n = h then 1 else 0) := by
          rw [Finset.sum_add_distrib]
      _ = n + 1 := by
          rw [ih hH']
          congr 1
          rw [Finset.sum_ite_eq (Finset.range T) (H n) (fun _ => 1)]
          simp [Finset.mem_range.mpr (hH n (by omega))]

/-- Buckets at-or-beyond the table size are empty when every hash lands
below the table size. -/
theorem bucketElems_empty_of_ge (H : ℕ → ℕ) (n T : ℕ)
    (hH : ∀ i, i < n → H i < T) (h : ℕ) (hh : T ≤ h) :
    bucketElems H n h = [] := by
  rw [List.eq_nil_iff_forall_not_mem]
  intro i hi
  obtain ⟨hin, hHi⟩ := bucketElems_mem.mp hi
  exact absurd (hHi ▸ hH i hin) (by omega)

/-- `cell_start` at the table size equals the particle count. -/
theorem gridCellStart_at_T (H : ℕ → ℕ) (n T : ℕ)
    (hH : ∀ i, i < n → H i < T) :
    gridCellStart (gridCellCount H n) T = n := by
  rw [gridCellStart_eq_sum,
    Finset.sum_congr rfl (fun h _ => congrFun (gridCellCount_eq H n) h)]
  exact sum_bucket_lengths H n T hH

/-- `cell_start` never exceeds the particle count. -/
theorem gridCellStart_le (H : ℕ → ℕ) (n T : ℕ) (hH : ∀ i, i < n → H i < T)
    (m : ℕ) : gridCellStart (gridCellCount H n) m ≤ n := by
  induction m with
  | zero => exact Nat.zero_le n
  | succ m ih =>
    rcases le_or_lt (m + 1) T with hm | hm
    · calc gridCellStart (gridCellCount H n) (m + 1)
          ≤ gridCellStart (gridCellCount H n) T :=
            gridCellStart_mono _ hm
        _ = n := gridCellStart_at_T H n T hH
    · have hz : gridCellCount H n m = 0 := by
        rw [congrFun (gridCellCount_eq H n) m,
          bucketElems_empty_of_ge H n T hH m (by omega)]
        rfl
      have : gridCellStart (gridCellCount H n) (m + 1) =
          gridCellStart (gridCellCount H n) m + gridCellCount H n m := rfl
      rw [this, hz, Nat.add_zero]
      exact ih

/-- Every position strictly below `cell_start t` lies in some bucket
slice below `t`. -/
theorem exists_bucket_of_lt (cnt : ℕ → ℕ) (t q : ℕ)
    (hq : q < gridCellStart cnt t) :
    ∃ h, h < t ∧ gridCellStart cnt h ≤ q ∧
      q < gridCellStart cnt h + cnt h := by
  induction t with
  | zero => exact absurd hq (by simp [gridCellStart])
  | succ t ih =>
    by_cases hlt : q < gridCellStart cnt t
    · obtain ⟨h, h1, h2, h3⟩ := ih hlt
      exact ⟨h, by omega, h2, h3⟩
    · refine ⟨t, by omega, by omega, ?_⟩
      have : gridCellStart cnt (t + 1) = gridCellStart cnt t + cnt t := rfl
      rw [this] at hq
      exact hq

/-- Claim C10: grid query index safety.  With a positive table size,
every hash lies below the table size; every index a query reports was
scattered during the build (hence is below `count`); the scatter write
for particle `k` lands at `cell_start[H k] +` (number of earlier
particles with the same hash), strictly below `count`; and the per-cell
ranges `[cell_start[h], cell_start[h] + cell_count[h])` are contained in
`[0, count)`, pairwise disjoint, and jointly cover it. -/
theorem C10_grid_index_safety (invC : ℚ) (T n : ℕ) (pos : ℕ → Vec3)
    (hT : 0 < T) :
    (∀ cx cy cz : ℤ, hashCell T cx cy cz < T) ∧
    (∀ i, particleHash invC T pos i < T) ∧
    (∀ (p : Vec3) (j : ℕ),
      j ∈ (buildGrid invC T pos n).queryNeighbors p → j < n) ∧
    (∀ k, k < n →
      (buildGrid invC T pos n).cellStart (particleHash invC T pos k) +
        (bucketElems (particleHash invC T pos) k
          (particleHash invC T pos k)).length < n) ∧
    (∀ h, (buildGrid invC T pos n).cellStart h +
      (buildGrid invC T pos n).cellCount h ≤ n) ∧
    (∀ h h', h < h' → (buildGrid invC T pos n).cellStart h +
      (buildGrid invC T pos n).cellCount h ≤
        (buildGrid invC T pos n).cellStart h') ∧
    (∀ q, q < n → ∃ h, h < T ∧ (buildGrid invC T pos n).cellStart h ≤ q ∧
      q < (buildGrid invC T pos n).cellStart h +
        (buildGrid invC T pos n).cellCount h) := by
  set H := particleHash invC T pos with hH
  have hHT : ∀ i, H i < T := by
    intro i
    rw [hH]
    unfold particleHash hashCell
    exact Nat.mod_lt _ hT
  have hHT' : ∀ i, i < n → H i < T := fun i _ => hHT i
  have hcnt : ∀ h, (buildGrid invC T pos n).cellCount h =
      gridCellCount H n h := by
    intro h
    rw [buildGrid_cellCount, congrFun (gridCellCount_eq H n) h]
  have hcs : (buildGrid invC T pos n).cellStart =
      gridCellStart (gridCellCount H n) := rfl
  refine ⟨?_, ?_, ?_, ?_, ?_, ?_, ?_⟩
  · intro cx cy cz
    unfold hashCell
    exact Nat.mod_lt _ hT
  · intro i
    exact hHT i
  · intro p j hj
    unfold BuiltGrid.queryNeighbors at hj
    rw [List.mem_flatMap] at hj
    obtain ⟨dx, _, hj⟩ := hj
    rw [List.mem_flatMap] at hj
    obtain ⟨dy, _, hj⟩ := hj
    rw [List.mem_flatMap] at hj
    obtain ⟨dz, _, hj⟩ := hj
    rw [buildGrid_bucket] at hj
    exact (bucketElems_mem.mp hj).1
  · intro k hk
    have h1 : (bucketElems H k (H k)).length <
        (bucketElems H n (H k)).length := by
      have hs := bucketElems_succ H k (H k)
      have : (bucketElems H (k + 1) (H k)).length =
          (bucketElems H k (H k)).length + 1 := by
        rw [hs, if_pos rfl]
        simp
      have hmono := bucketElems_length_mono H (show k + 1 ≤ n from hk) (H k)
      omega
    have h2 : gridCellStart (gridCellCount H n) (H k) +
        gridCellCount H n (H k) ≤ n := by
      have hchain : gridCellStart (gridCellCount H n) (H k) +
          gridCellCount H n (H k) =
          gridCellStart (gridCellCount H n) (H k + 1) := rfl
      rw [hchain]
      exact le_trans
        (gridCellStart_mono _ (Nat.succ_le_of_lt (hHT k)))
        (le_of_eq (gridCellStart_at_T H n T hHT'))
    rw [hcs]
    have h3 : gridCellCount H n (H k) = (bucketElems H n (H k)).length :=
      congrFun (gridCellCount_eq H n) (H k)
    omega
  · intro h
    rw [hcs, hcnt]
    rcases lt_or_ge h T with hhT | hhT
    · have hchain : gridCellStart (gridCellCount H n) h +
          gridCellCount H n h = gridCellStart (gridCellCount H n) (h + 1) :=
        rfl
      rw [hchain]
      exact le_trans (gridCellStart_mono _ (Nat.succ_le_of_lt hhT))
        (le_of_eq (gridCellStart_at_T H n T hHT'))
    · have hz : gridCellCount H n h = 0 := by
        rw [congrFun (gridCellCount_eq H n) h,
          bucketElems_empty_of_ge H n T hHT' h hhT]
        rfl
      rw [hz, Nat.add_zero]
      exact gridCellStart_le H n T hHT' h
  · intro h h' hlt
    rw [hcs, hcnt]
    exact gridCellStart_chain _ hlt
  · intro q hq
    have hq' : q < gridCellStart (gridCellCount H n) T := by
      rw [gridCellStart_at_T H n T hHT']
      exact hq
    obtain ⟨h, h1, h2, h3⟩ := exists_bucket_of_lt (gridCellCount H n) T q hq'
    refine ⟨h, h1, ?_, ?_⟩
    · rw [hcs]; exact h2
    · rw [hcs, hcnt]; exact h3

/-- Witness for claim C10, on the concrete grid `gridC6` (T = 16). -/
theorem C10_grid_index_safety_witness :
    (∀ cx cy cz : ℤ, hashCell 16 cx cy cz < 16) ∧
    (∀ (p : Vec3) (j : ℕ),
      j ∈ (buildGrid 5 16 posC6 2).queryNeighbors p → j < 2) ∧
    (∀ q, q < 2 → ∃ h, h < 16 ∧ (buildGrid 5 16 posC6 2).cellStart h ≤ q ∧
      q < (buildGrid 5 16 posC6 2).cellStart h +
        (buildGrid 5 16 posC6 2).cellCount h) := by
  have h := C10_grid_index_safety 5 16 2 posC6 (by norm_num)
  exact ⟨h.1, h.2.2.1, h.2.2.2.2.2.2⟩

/-- Membership characterisation of `detect_contacts`: a contact is
emitted exactly for the grid-reported ordered pairs `i < j` in sphere
overlap, with the unit normal from `i` to `j` and the penetration
depth. -/
theorem detectContacts_mem (sqrtF : ℚ → ℚ) (positions : ℕ → Vec3)
    (radii : ℕ → ℚ) (count : ℕ) (query : Vec3 → List ℕ)
    (c : ContactConstraint) :
    c ∈ detectContacts sqrtF positions radii count query ↔
      ∃ i j, i < count ∧ j ∈ query (positions i) ∧ i < j ∧
        Vec3.length sqrtF (positions j - positions i) < radii i + radii j ∧
        Vec3.length sqrtF (positions j - positions i) > 1/100000000 ∧
        c = ⟨i, j,
          (positions j - positions i) /
            Vec3.length sqrtF (positions j - positions i),
          radii i + radii j -
            Vec3.length sqrtF (positions j - positions i)⟩ := by
  unfold detectContacts
  rw [List.mem_flatMap]
  constructor
  · rintro ⟨i, hi, hc⟩
    rw [List.mem_filterMap] at hc
    obtain ⟨j, hj, hf⟩ := hc
    by_cases hji : j ≤ i
    · rw [if_pos hji] at hf
      exact absurd hf (by simp)
    · rw [if_neg hji] at hf
      dsimp only at hf
      by_cases hcond :
          Vec3.length sqrtF (positions j - positions i) <
            radii i + radii j ∧
          Vec3.length sqrtF (positions j - positions i) > 1/100000000
      · rw [if_pos hcond] at hf
        exact ⟨i, j, List.mem_range.mp hi, hj, by omega, hcond.1, hcond.2,
          (Option.some.inj hf).symm⟩
      · rw [if_neg hcond] at hf
        exact absurd hf (by simp)
  · rintro ⟨i, j, hi, hj, hij, h1, h2, rfl⟩
    refine ⟨i, List.mem_range.mpr hi, ?_⟩
    rw [List.mem_filterMap]
    refine ⟨j, hj, ?_⟩
    rw [if_neg (by omega)]
    dsimp only
    rw [if_pos ⟨h1, h2⟩]

theorem posC6_hash0 : particleHash 5 16 posC6 0 = 0 := by
  unfold particleHash
  have hc : cellCoords 5 (posC6 0) = (0, 0, 0) := by
    norm_num [cellCoords, posC6, Vec3.zero]
  rw [hc]
  decide

theorem posC6_hash1 : particleHash 5 16 posC6 1 = 0 := by
  unfold particleHash
  have hc : cellCoords 5 (posC6 1) = (0, 0, 0) := by
    norm_num [cellCoords, posC6]
  rw [hc]
  decide

theorem gridC6_bucket (h : ℕ) :
    gridC6.bucket h = if h = 0 then [0, 1] else [] := by
  rw [show gridC6 = buildGrid 5 16 posC6 2 from rfl, buildGrid_bucket]
  unfold bucketElems
  rw [show List.range 2 = [0, 1] from rfl]
  simp only [List.filter, posC6_hash0, posC6_hash1]
  by_cases h0 : h = 0
  · simp [h0]
  · have hne : ¬((0 : ℕ) = h) := fun hc => h0 hc.symm
    simp [h0, hne]

theorem gridC6_query0 : gridC6.queryNeighbors (posC6 0) = [0, 1] := by
  unfold BuiltGrid.queryNeighbors
  dsimp only
  have hcell : cellCoords gridC6.invCellSize (posC6 0) = (0, 0, 0) := by
    norm_num [cellCoords, posC6, Vec3.zero, show gridC6.invCellSize = 5
      from rfl]
  rw [hcell]
  simp only [List.flatMap_cons, List.flatMap_nil, gridC6_bucket,
    show gridC6.tableSize = 16 from rfl]
  decide

theorem gridC6_query1 : gridC6.queryNeighbors (posC6 1) = [0, 1] := by
  unfold BuiltGrid.queryNeighbors
  dsimp only
  have hcell : cellCoords gridC6.invCellSize (posC6 1) = (0, 0, 0) := by
    norm_num [cellCoords, posC6, show gridC6.invCellSize = 5 from rfl]
  rw [hcell]
  simp only [List.flatMap_cons, List.flatMap_nil, gridC6_bucket,
    show gridC6.tableSize = 16 from rfl]
  decide

/-- Claim C6: `detect_contacts` emits a contact exactly for each
grid-reported pair `i < j` with `1e-8 < dist < r_i + r_j`, carrying
`normal = (positions[j] − positions[i]) / dist` and
`penetration = r_i + r_j − dist`; and two overlapping spheres of radius
0.1 with centres 0.1 apart produce, through the real grid, exactly one
contact whose penetration 0.1 is within 0.01 of 0.1. -/
theorem C6_detect_contacts :
    (∀ (sqrtF : ℚ → ℚ) (positions : ℕ → Vec3) (radii : ℕ → ℚ) (count : ℕ)
      (query : Vec3 → List ℕ) (c : ContactConstraint),
      c ∈ detectContacts sqrtF positions radii count query ↔
        ∃ i j, i < count ∧ j ∈ query (positions i) ∧ i < j ∧
          Vec3.length sqrtF (positions j - positions i) <
            radii i + radii j ∧
          Vec3.length sqrtF (positions j - positions i) > 1/100000000 ∧
          c = ⟨i, j,
            (positions j - positions i) /
              Vec3.length sqrtF (positions j - positions i),
            radii i + radii j -
              Vec3.length sqrtF (positions j - positions i)⟩) ∧
    detectContacts ratSqrt posC6 (fun _ => 1/10) 2 gridC6.queryNeighbors =
      [⟨0, 1, ⟨1, 0, 0⟩, 1/10⟩] ∧
    |(1/10 : ℚ) - 1/10| ≤ 1/100 := by
  refine ⟨detectContacts_mem, ?_, by norm_num⟩
  unfold detectContacts
  rw [show List.range 2 = [0, 1] from rfl]
  simp only [List.flatMap_cons, List.flatMap_nil, gridC6_query0,
    gridC6_query1]
  norm_num [List.filterMap, posC6, Vec3.length, Vec3.zero, ratSqrt,
    natSqrtDown]

/-- Witness for claim C6: the single emitted contact satisfies the
characterisation at the concrete pair (0, 1). -/
theorem C6_detect_contacts_witness :
    (⟨0, 1, ⟨1, 0, 0⟩, 1/10⟩ : ContactConstraint) ∈
      detectContacts ratSqrt posC6 (fun _ => 1/10) 2
        gridC6.queryNeighbors := by
  refine (C6_detect_contacts.1 ratSqrt posC6 (fun _ => 1/10) 2
    gridC6.queryNeighbors _).mpr ⟨0, 1, by norm_num, ?_, by norm_num, ?_, ?_,
    ?_⟩
  · rw [gridC6_query0]
    simp
  · norm_num [posC6, Vec3.length, Vec3.zero, ratSqrt, natSqrtDown]
  · norm_num [posC6, Vec3.length, Vec3.zero, ratSqrt, natSqrtDown]
  · norm_num [posC6, Vec3.length, Vec3.zero, ratSqrt, natSqrtDown,
      ContactConstraint.mk.injEq, Vec3.ext_iff]

theorem lengthSq_nonneg (v : Vec3) : 0 ≤ Vec3.lengthSq v := by
  unfold Vec3.lengthSq Vec3.dot
  have hx := mul_self_nonneg v.x
  have hy := mul_self_nonneg v.y
  have hz := mul_self_nonneg v.z
  linarith

/-- With θ = 0 the opening-angle criterion never fires, so the traversal
descends every sufficiently massive internal node and sums exactly the
retained leaves' contributions. -/
theorem traverse_zero_theta (sqrtF : ℚ → ℚ) (soft_sq g : ℚ) (pos : Vec3)
    (pidx : ℕ) (hsoft : 0 ≤ soft_sq) :
    ∀ t : OTree, internalMassOK t = true →
      traverseOctree sqrtF 0 soft_sq g pos pidx t =
        ((leafData t).map (leafContrib sqrtF soft_sq g pos pidx)).sum := by
  intro t
  induction t with
  | empty =>
    intro _
    show Vec3.zero = _
    simp only [leafData, List.map_nil, List.sum_nil]
    rfl
  | leaf bmin bmax com m idx =>
    intro _
    show (if idx = pidx then Vec3.zero else _) = _
    rw [show leafData (OTree.leaf bmin bmax com m idx) = [(com, m, idx)]
      from rfl, List.map_cons, List.map_nil, List.sum_cons, List.sum_nil]
    unfold leafContrib
    dsimp only
    split_ifs <;> simp
  | node bmin bmax com m k0 k1 k2 k3 k4 k5 k6 k7 ih0 ih1 ih2 ih3 ih4 ih5 ih6
      ih7 =>
    intro hmass
    unfold internalMassOK at hmass
    simp only [Bool.and_eq_true, decide_eq_true_eq] at hmass
    obtain ⟨⟨⟨⟨⟨⟨⟨⟨hm, h0⟩, h1⟩, h2⟩, h3⟩, h4⟩, h5⟩, h6⟩, h7⟩ := hmass
    show (if m < 1/10000000000 then Vec3.zero else _) = _
    rw [if_neg hm]
    have hnotheta : ¬ (OTree.size (OTree.node bmin bmax com m k0 k1 k2 k3 k4
        k5 k6 k7) * OTree.size (OTree.node bmin bmax com m k0 k1 k2 k3 k4 k5
        k6 k7) / (Vec3.lengthSq (com - pos) + soft_sq) < 0 * 0) := by
      rw [mul_zero, not_lt]
      exact div_nonneg (mul_self_nonneg _)
        (add_nonneg (lengthSq_nonneg _) hsoft)
    rw [if_neg hnotheta, ih0 h0, ih1 h1, ih2 h2, ih3 h3, ih4 h4, ih5 h5,
      ih6 h6, ih7 h7,
      show leafData (OTree.node bmin bmax com m k0 k1 k2 k3 k4 k5 k6 k7) =
        leafData k0 ++ leafData k1 ++ leafData k2 ++ leafData k3 ++
        leafData k4 ++ leafData k5 ++ leafData k6 ++ leafData k7 from rfl]
    simp only [List.map_append, List.sum_append]

theorem foldl_add_eq_sum {M : Type} [AddCommMonoid M] (f : ℕ → M)
    (l : List ℕ) (a : M) :
    l.foldl (fun acc j => acc + f j) a = a + (l.map f).sum := by
  induction l generalizing a with
  | nil => simp
  | cons j l ih =>
    rw [List.foldl_cons, List.map_cons, List.sum_cons, ih, add_assoc]

theorem sum_map_ite_filter {M : Type} [AddCommMonoid M] (f : ℕ → M) (i : ℕ)
    (l : List ℕ) :
    (l.map (fun j => if j = i then 0 else f j)).sum =
      ((l.filter (fun j => j ≠ i)).map f).sum := by
  induction l with
  | nil => rfl
  | cons j l ih =>
    rw [List.map_cons, List.sum_cons]
    by_cases hj : j = i
    · rw [if_pos hj, List.filter_cons_of_neg (by simp [hj]), ih, zero_add]
    · rw [if_neg hj, List.filter_cons_of_pos (by simp [hj]), List.map_cons,
        List.sum_cons, ih]

/-- Claim C4, amended: with opening angle θ = 0, `apply_nbody_gravity` is
exact — the velocity increment is `dt` times the direct pairwise softened
inverse-square sum — provided the built octree retained every particle as
a unit-mass leaf (no insertion-depth-cap drop), every internal node
aggregates mass above the 1e-10 skip threshold, and every pairwise
softened distance clears the 1e-8 guard. -/
theorem C4_barnes_hut_theta_zero_exact_amended (sqrtF : ℚ → ℚ)
    (positions velocities : ℕ → Vec3) (count : ℕ) (g softening dt : ℚ)
    (tree : OTree) (hbuild : buildOctree positions count = some tree)
    (hperm : (leafData tree).Perm
      ((List.range count).map (fun j => (positions j, (1 : ℚ), j))))
    (hmass : internalMassOK tree = true) (i : ℕ) (hi : i < count)
    (hguard : ∀ j, j < count → j ≠ i →
      sqrtF (Vec3.lengthSq (positions j - positions i) +
        softening * softening) > 1/100000000) :
    applyNbodyGravity sqrtF positions velocities count g softening 0 dt i =
      velocities i +
        dt • specDirectGravityAcc sqrtF positions count g softening i := by
  have htrav : traverseOctree sqrtF 0 (softening * softening) g
      (positions i) i tree =
      specDirectGravityAcc sqrtF positions count g softening i := by
    rw [traverse_zero_theta sqrtF (softening * softening) g (positions i) i
      (mul_self_nonneg softening) tree hmass]
    rw [(hperm.map (leafContrib sqrtF (softening * softening) g
      (positions i) i)).sum_eq]
    rw [List.map_map]
    have hcongr : ∀ j ∈ List.range count,
        (leafContrib sqrtF (softening * softening) g (positions i) i ∘
          fun j => (positions j, (1 : ℚ), j)) j =
        (if j = i then 0 else
          (g * 1 / ((Vec3.lengthSq (positions j - positions i) +
              softening * softening) *
            sqrtF (Vec3.lengthSq (positions j - positions i) +
              softening * softening)) : ℚ) •
            (positions j - positions i)) := by
      intro j hj
      show leafContrib sqrtF (softening * softening) g (positions i) i
        (positions j, (1 : ℚ), j) = _
      unfold leafContrib
      dsimp only
      by_cases hji : j = i
      · rw [if_pos hji, if_pos hji]
        rfl
      · rw [if_neg hji, if_neg hji, if_neg (by norm_num),
          if_pos (hguard j (List.mem_range.mp hj) hji)]
    rw [List.map_congr_left hcongr]
    rw [sum_map_ite_filter]
    unfold specDirectGravityAcc
    rw [foldl_add_eq_sum, Vec3.zero_add_vec]
  unfold applyNbodyGravity
  rw [hbuild]
  dsimp only
  rw [if_pos hi, htrav]

/-- One definitional unfolding of `insertGo` at positive fuel. -/
theorem insertGo_succ (fuel : ℕ) (t : OTree) (pos : Vec3) (mass : ℚ)
    (idx : ℕ) :
    OTree.insertGo (fuel + 1) t pos mass idx =
      (OTree.updAggregate
        (match t with
          | OTree.empty => OTree.empty
          | OTree.leaf bmin bmax com m pidx =>
            let center := (1/2 : ℚ) • (bmin + bmax)
            let octE := OTree.octant center com
            let cb := OTree.childBounds bmin bmax octE
            let childE := OTree.leaf cb.1 cb.2 com m pidx
            let base := OTree.setOct (OTree.node bmin bmax com m OTree.empty
              OTree.empty OTree.empty OTree.empty OTree.empty OTree.empty
              OTree.empty OTree.empty) octE childE
            let octN := OTree.octant center pos
            (match OTree.getOct base octN with
              | OTree.empty =>
                let cbN := OTree.childBounds bmin bmax octN
                OTree.setOct base octN (OTree.leaf cbN.1 cbN.2 pos mass idx)
              | c => OTree.setOct base octN
                  (OTree.insertGo fuel c pos mass idx).1)
          | OTree.node bmin bmax com m k0 k1 k2 k3 k4 k5 k6 k7 =>
            let t0 := OTree.node bmin bmax com m k0 k1 k2 k3 k4 k5 k6 k7
            let center := (1/2 : ℚ) • (bmin + bmax)
            let oct := OTree.octant center pos
            (match OTree.getOct t0 oct with
              | OTree.empty =>
                let cb := OTree.childBounds bmin bmax oct
                OTree.setOct t0 oct (OTree.leaf cb.1 cb.2 pos mass idx)
              | c => OTree.setOct t0 oct
                  (OTree.insertGo fuel c pos mass idx).1)) pos mass,
        true) := by
  cases t <;> rfl

theorem getOct_setOct_node (bmin bmax com : Vec3) (m : ℚ)
    (k0 k1 k2 k3 k4 k5 k6 k7 : OTree) (oct : ℕ) (c : OTree) :
    OTree.getOct (OTree.setOct (OTree.node bmin bmax com m k0 k1 k2 k3 k4 k5
      k6 k7) oct c) oct = c := by
  match oct with
  | 0 => rfl
  | 1 => rfl
  | 2 => rfl
  | 3 => rfl
  | 4 => rfl
  | 5 => rfl
  | 6 => rfl
  | n + 7 => rfl

theorem setOct_setOct_node (bmin bmax com : Vec3) (m : ℚ)
    (k0 k1 k2 k3 k4 k5 k6 k7 : OTree) (oct : ℕ) (a b : OTree) :
    OTree.setOct (OTree.setOct (OTree.node bmin bmax com m k0 k1 k2 k3 k4 k5
      k6 k7) oct a) oct b =
    OTree.setOct (OTree.node bmin bmax com m k0 k1 k2 k3 k4 k5 k6 k7) oct
      b := by
  match oct with
  | 0 => rfl
  | 1 => rfl
  | 2 => rfl
  | 3 => rfl
  | 4 => rfl
  | 5 => rfl
  | 6 => rfl
  | n + 7 => rfl

/-- θ = 0 traversal of an aggregate-updated single-child node reduces to
the traversal of that child. -/
theorem traverse_updAgg_setOct_single (sqrtF : ℚ → ℚ) (soft_sq g : ℚ)
    (pos : Vec3) (pidx : ℕ) (hsoft : 0 ≤ soft_sq) (bmin bmax com : Vec3)
    (m : ℚ) (oct : ℕ) (c : OTree) (p' : Vec3) (m' : ℚ)
    (hm : ¬ m + m' < 1/10000000000) :
    traverseOctree sqrtF 0 soft_sq g pos pidx
      (OTree.updAggregate (OTree.setOct (OTree.node bmin bmax com m
        OTree.empty OTree.empty OTree.empty OTree.empty OTree.empty
        OTree.empty OTree.empty OTree.empty) oct c) p' m') =
    traverseOctree sqrtF 0 soft_sq g pos pidx c := by
  match oct with
  | 0 =>
    show (if m + m' < 1/10000000000 then Vec3.zero else _) = _
    rw [if_neg hm]
    rw [if_neg (by
      rw [mul_zero, not_lt]
      exact div_nonneg (mul_self_nonneg _)
        (add_nonneg (lengthSq_nonneg _) hsoft))]
    show traverseOctree sqrtF 0 soft_sq g pos pidx c + Vec3.zero + Vec3.zero
      + Vec3.zero + Vec3.zero + Vec3.zero + Vec3.zero + Vec3.zero = _
    simp only [Vec3.zero_add_vec, Vec3.add_zero_vec]
  | 1 =>
    show (if m + m' < 1/10000000000 then Vec3.zero else _) = _
    rw [if_neg hm]
    rw [if_neg (by
      rw [mul_zero, not_lt]
      exact div_nonneg (mul_self_nonneg _)
        (add_nonneg (lengthSq_nonneg _) hsoft))]
    show Vec3.zero + traverseOctree sqrtF 0 soft_sq g pos pidx c + Vec3.zero
      + Vec3.zero + Vec3.zero + Vec3.zero + Vec3.zero + Vec3.zero = _
    simp only [Vec3.zero_add_vec, Vec3.add_zero_vec]
  | 2 =>
    show (if m + m' < 1/10000000000 then Vec3.zero else _) = _
    rw [if_neg hm]
    rw [if_neg (by
      rw [mul_zero, not_lt]
      exact div_nonneg (mul_self_nonneg _)
        (add_nonneg (lengthSq_nonneg _) hsoft))]
    show Vec3.zero + Vec3.zero + traverseOctree sqrtF 0 soft_sq g pos pidx c
      + Vec3.zero + Vec3.zero + Vec3.zero + Vec3.zero + Vec3.zero = _
    simp only [Vec3.zero_add_vec, Vec3.add_zero_vec]
  | 3 =>
    show (if m + m' < 1/10000000000 then Vec3.zero else _) = _
    rw [if_neg hm]
    rw [if_neg (by
      rw [mul_zero, not_lt]
      exact div_nonneg (mul_self_nonneg _)
        (add_nonneg (lengthSq_nonneg _) hsoft))]
    show Vec3.zero + Vec3.zero + Vec3.zero +
      traverseOctree sqrtF 0 soft_sq g pos pidx c + Vec3.zero + Vec3.zero +
      Vec3.zero + Vec3.zero = _
    simp only [Vec3.zero_add_vec, Vec3.add_zero_vec]
  | 4 =>
    show (if m + m' < 1/10000000000 then Vec3.zero else _) = _
    rw [if_neg hm]
    rw [if_neg (by
      rw [mul_zero, not_lt]
      exact div_nonneg (mul_self_nonneg _)
        (add_nonneg (lengthSq_nonneg _) hsoft))]
    show Vec3.zero + Vec3.zero + Vec3.zero + Vec3.zero +
      traverseOctree sqrtF 0 soft_sq g pos pidx c + Vec3.zero + Vec3.zero +
      Vec3.zero = _
    simp only [Vec3.zero_add_vec, Vec3.add_zero_vec]
  | 5 =>
    show (if m + m' < 1/10000000000 then Vec3.zero else _) = _
    rw [if_neg hm]
    rw [if_neg (by
      rw [mul_zero, not_lt]
      exact div_nonneg (mul_self_nonneg _)
        (add_nonneg (lengthSq_nonneg _) hsoft))]
    show Vec3.zero + Vec3.zero + Vec3.zero + Vec3.zero + Vec3.zero +
      traverseOctree sqrtF 0 soft_sq g pos pidx c + Vec3.zero +
      Vec3.zero = _
    simp only [Vec3.zero_add_vec, Vec3.add_zero_vec]
  | 6 =>
    show (if m + m' < 1/10000000000 then Vec3.zero else _) = _
    rw [if_neg hm]
    rw [if_neg (by
      rw [mul_zero, not_lt]
      exact div_nonneg (mul_self_nonneg _)
        (add_nonneg (lengthSq_nonneg _) hsoft))]
    show Vec3.zero + Vec3.zero + Vec3.zero + Vec3.zero + Vec3.zero +
      Vec3.zero + traverseOctree sqrtF 0 soft_sq g pos pidx c +
      Vec3.zero = _
    simp only [Vec3.zero_add_vec, Vec3.add_zero_vec]
  | n + 7 =>
    show (if m + m' < 1/10000000000 then Vec3.zero else _) = _
    rw [if_neg hm]
    rw [if_neg (by
      rw [mul_zero, not_lt]
      exact div_nonneg (mul_self_nonneg _)
        (add_nonneg (lengthSq_nonneg _) hsoft))]
    show Vec3.zero + Vec3.zero + Vec3.zero + Vec3.zero + Vec3.zero +
      Vec3.zero + Vec3.zero + traverseOctree sqrtF 0 soft_sq g pos pidx c
      = _
    simp only [Vec3.zero_add_vec, Vec3.add_zero_vec]

/-- Inserting a particle at exactly the position of an existing leaf
builds a chain of internal nodes but, for a θ = 0 traversal, contributes
exactly what the original leaf contributed: the bottom of the chain keeps
the original particle with its original mass, and the new particle is
dropped when the fuel (depth budget) runs out. -/
theorem insertGo_coincident (sqrtF : ℚ → ℚ) (soft_sq g : ℚ) (pos : Vec3)
    (pidx : ℕ) (hsoft : 0 ≤ soft_sq) :
    ∀ (fuel : ℕ) (bmin bmax com : Vec3) (m : ℚ), 0 ≤ m → ∀ (idx j : ℕ),
    traverseOctree sqrtF 0 soft_sq g pos pidx
      (OTree.insertGo fuel (OTree.leaf bmin bmax com m idx) com 1 j).1 =
    traverseOctree sqrtF 0 soft_sq g pos pidx
      (OTree.leaf bmin bmax com m idx) := by
  intro fuel
  induction fuel with
  | zero =>
    intro bmin bmax com m hm idx j
    rfl
  | succ fuel ih =>
    intro bmin bmax com m hm idx j
    rw [insertGo_succ]
    dsimp only
    rw [getOct_setOct_node]
    dsimp only
    rw [setOct_setOct_node]
    rw [traverse_updAgg_setOct_single sqrtF soft_sq g pos pidx hsoft]
    · rw [ih _ _ com m hm idx j]
      rfl
    · rw [not_lt]
      have h1 : (1:ℚ)/10000000000 ≤ 1 := by norm_num
      linarith

theorem insertC4_step1 :
    (OTree.insertGo 33 (OTree.node ⟨-1/100, -1/100, -1/100⟩
      ⟨101/100, 1/100, 1/100⟩ Vec3.zero 0 OTree.empty OTree.empty
      OTree.empty OTree.empty OTree.empty OTree.empty OTree.empty
      OTree.empty) ⟨0, 0, 0⟩ 1 0).1 =
    OTree.node ⟨-1/100, -1/100, -1/100⟩ ⟨101/100, 1/100, 1/100⟩ ⟨0, 0, 0⟩ 1
      OTree.empty OTree.empty OTree.empty OTree.empty OTree.empty OTree.empty
      (OTree.leaf ⟨-1/100, 0, 0⟩ ⟨1/2, 1/100, 1/100⟩ ⟨0, 0, 0⟩ 1 0)
      OTree.empty := by
  rw [show (33:ℕ) = 32 + 1 from rfl, insertGo_succ]
  dsimp only
  rw [show ((1/2 : ℚ) • ((⟨-1/100, -1/100, -1/100⟩ : Vec3) +
    (⟨101/100, 1/100, 1/100⟩ : Vec3))) = (⟨1/2, 0, 0⟩ : Vec3) from by
    norm_num [Vec3.smul_mk, Vec3.mk_add_mk, Vec3.ext_iff]]
  rw [show OTree.octant ⟨1/2, 0, 0⟩ ⟨0, 0, 0⟩ = 6 from by
    norm_num [OTree.octant]]
  rw [show OTree.getOct (OTree.node ⟨-1/100, -1/100, -1/100⟩
    ⟨101/100, 1/100, 1/100⟩ Vec3.zero 0 OTree.empty OTree.empty OTree.empty
    OTree.empty OTree.empty OTree.empty OTree.empty OTree.empty) 6 =
    OTree.empty from rfl]
  dsimp only
  rw [show OTree.childBounds ⟨-1/100, -1/100, -1/100⟩
    ⟨101/100, 1/100, 1/100⟩ 6 =
    ((⟨-1/100, 0, 0⟩ : Vec3), (⟨1/2, 1/100, 1/100⟩ : Vec3)) from by
    norm_num [OTree.childBounds, Vec3.smul_mk, Vec3.mk_add_mk, Prod.ext_iff,
      Vec3.ext_iff]]
  dsimp only [OTree.setOct, OTree.updAggregate]
  simp only [OTree.node.injEq]
  norm_num [Vec3.smul_mk, Vec3.mk_add_mk, Vec3.ext_iff, Vec3.zero]

theorem insertC4_step2 :
    (OTree.insertGo 33 (OTree.node ⟨-1/100, -1/100, -1/100⟩
      ⟨101/100, 1/100, 1/100⟩ ⟨0, 0, 0⟩ 1 OTree.empty OTree.empty
      OTree.empty OTree.empty OTree.empty OTree.empty
      (OTree.leaf ⟨-1/100, 0, 0⟩ ⟨1/2, 1/100, 1/100⟩ ⟨0, 0, 0⟩ 1 0)
      OTree.empty) ⟨1, 0, 0⟩ 1 1).1 = treeC4 := by
  rw [show (33:ℕ) = 32 + 1 from rfl, insertGo_succ]
  dsimp only
  rw [show ((1/2 : ℚ) • ((⟨-1/100, -1/100, -1/100⟩ : Vec3) +
    (⟨101/100, 1/100, 1/100⟩ : Vec3))) = (⟨1/2, 0, 0⟩ : Vec3) from by
    norm_num [Vec3.smul_mk, Vec3.mk_add_mk, Vec3.ext_iff]]
  rw [show OTree.octant ⟨1/2, 0, 0⟩ ⟨1, 0, 0⟩ = 7 from by
    norm_num [OTree.octant]]
  rw [show OTree.getOct (OTree.node ⟨-1/100, -1/100, -1/100⟩
    ⟨101/100, 1/100, 1/100⟩ ⟨0, 0, 0⟩ 1 OTree.empty OTree.empty OTree.empty
    OTree.empty OTree.empty OTree.empty
    (OTree.leaf ⟨-1/100, 0, 0⟩ ⟨1/2, 1/100, 1/100⟩ ⟨0, 0, 0⟩ 1 0)
    OTree.empty) 7 = OTree.empty from rfl]
  dsimp only
  rw [show OTree.childBounds ⟨-1/100, -1/100, -1/100⟩
    ⟨101/100, 1/100, 1/100⟩ 7 =
    ((⟨1/2, 0, 0⟩ : Vec3), (⟨101/100, 1/100, 1/100⟩ : Vec3)) from by
    norm_num [OTree.childBounds, Vec3.smul_mk, Vec3.mk_add_mk, Prod.ext_iff,
      Vec3.ext_iff]]
  dsimp only [OTree.setOct, OTree.updAggregate]
  unfold treeC4
  simp only [OTree.node.injEq]
  norm_num [Vec3.smul_mk, Vec3.mk_add_mk, Vec3.ext_iff]

theorem buildOctree_posC4 : buildOctree posC4 2 = some treeC4 := by
  unfold buildOctree
  rw [if_neg (by norm_num)]
  dsimp only
  rw [show List.range 1 = [0] from rfl, show List.range 2 = [0, 1] from rfl]
  dsimp only [List.foldl]
  rw [show posC4 0 = ⟨0,0,0⟩ from rfl, show posC4 1 = ⟨1,0,0⟩ from rfl]
  rw [show ((⟨0,0,0⟩ : Vec3).vmin ⟨1,0,0⟩ - ⟨1/100, 1/100, 1/100⟩) =
    (⟨-1/100, -1/100, -1/100⟩ : Vec3) from by
    norm_num [Vec3.vmin, Vec3.mk_sub_mk, Vec3.ext_iff, min_def]]
  rw [show ((⟨0,0,0⟩ : Vec3).vmax ⟨1,0,0⟩ + ⟨1/100, 1/100, 1/100⟩) =
    (⟨101/100, 1/100, 1/100⟩ : Vec3) from by
    norm_num [Vec3.vmax, Vec3.mk_add_mk, Vec3.ext_iff, max_def]]
  rw [insertC4_step1, insertC4_step2]

/-- Witness for C4 (amended): the two-particle configuration `posC4`
builds the octree `treeC4`, which satisfies every hypothesis, and the
θ = 0 velocity update of particle 0 equals the direct pairwise sum. -/
theorem C4_barnes_hut_theta_zero_exact_amended_witness :
    applyNbodyGravity ratSqrt posC4 (fun _ => Vec3.zero) 2 1 0 0 1 0 =
      (fun _ => Vec3.zero) 0 +
        (1 : ℚ) • specDirectGravityAcc ratSqrt posC4 2 1 0 0 := by
  have hperm : (leafData treeC4).Perm
      ((List.range 2).map (fun j => (posC4 j, (1 : ℚ), j))) := by
    rw [show (List.range 2).map (fun j => (posC4 j, (1 : ℚ), j)) =
      leafData treeC4 from rfl]
  have hmass : internalMassOK treeC4 = true := by
    unfold internalMassOK treeC4
    simp only [Bool.and_eq_true, decide_eq_true_eq]
    norm_num
    exact ⟨⟨rfl, rfl⟩, rfl⟩
  have hguard : ∀ j, j < 2 → j ≠ 0 →
      ratSqrt (Vec3.lengthSq (posC4 j - posC4 0) + 0 * 0) >
        1/100000000 := by
    intro j hj hj0
    interval_cases j
    · exact absurd rfl hj0
    · rw [show Vec3.lengthSq (posC4 1 - posC4 0) + 0 * 0 = 1 from by
        norm_num [posC4, Vec3.mk_sub_mk, Vec3.lengthSq_mk, Vec3.zero]]
      rw [ratSqrt_one]
      norm_num
  exact C4_barnes_hut_theta_zero_exact_amended ratSqrt posC4
    (fun _ => Vec3.zero) 2 1 0 1 treeC4 buildOctree_posC4 hperm hmass 0
    (by norm_num) hguard

theorem insertC4bad_step2 :
    (OTree.insertGo 33 (OTree.node ⟨-1/100, -1/100, -1/100⟩
      ⟨101/100, 1/100, 1/100⟩ ⟨0, 0, 0⟩ 1 OTree.empty OTree.empty
      OTree.empty OTree.empty OTree.empty OTree.empty
      (OTree.leaf ⟨-1/100, 0, 0⟩ ⟨1/2, 1/100, 1/100⟩ ⟨0, 0, 0⟩ 1 0)
      OTree.empty) ⟨0, 0, 0⟩ 1 1).1 =
    OTree.node ⟨-1/100, -1/100, -1/100⟩ ⟨101/100, 1/100, 1/100⟩ ⟨0, 0, 0⟩ 2
      OTree.empty OTree.empty OTree.empty OTree.empty OTree.empty OTree.empty
      chainC4bad OTree.empty := by
  rw [show (33:ℕ) = 32 + 1 from rfl, insertGo_succ]
  dsimp only
  rw [show ((1/2 : ℚ) • ((⟨-1/100, -1/100, -1/100⟩ : Vec3) +
    (⟨101/100, 1/100, 1/100⟩ : Vec3))) = (⟨1/2, 0, 0⟩ : Vec3) from by
    norm_num [Vec3.smul_mk, Vec3.mk_add_mk, Vec3.ext_iff]]
  rw [show OTree.octant ⟨1/2, 0, 0⟩ ⟨0, 0, 0⟩ = 6 from by
    norm_num [OTree.octant]]
  rw [show OTree.getOct (OTree.node ⟨-1/100, -1/100, -1/100⟩
    ⟨101/100, 1/100, 1/100⟩ ⟨0, 0, 0⟩ 1 OTree.empty OTree.empty OTree.empty
    OTree.empty OTree.empty OTree.empty
    (OTree.leaf ⟨-1/100, 0, 0⟩ ⟨1/2, 1/100, 1/100⟩ ⟨0, 0, 0⟩ 1 0)
    OTree.empty) 6 =
    OTree.leaf ⟨-1/100, 0, 0⟩ ⟨1/2, 1/100, 1/100⟩ ⟨0, 0, 0⟩ 1 0 from rfl]
  dsimp only [OTree.setOct, OTree.updAggregate]
  rw [show (OTree.insertGo 32 (OTree.leaf ⟨-1/100, 0, 0⟩
    ⟨1/2, 1/100, 1/100⟩ ⟨0, 0, 0⟩ 1 0) ⟨0, 0, 0⟩ 1 1).1 = chainC4bad from
    rfl]
  simp only [OTree.node.injEq]
  norm_num [Vec3.smul_mk, Vec3.mk_add_mk, Vec3.ext_iff, Vec3.zero]

theorem insertC4bad_step3 :
    (OTree.insertGo 33 (OTree.node ⟨-1/100, -1/100, -1/100⟩
      ⟨101/100, 1/100, 1/100⟩ ⟨0, 0, 0⟩ 2 OTree.empty OTree.empty
      OTree.empty OTree.empty OTree.empty OTree.empty chainC4bad
      OTree.empty) ⟨1, 0, 0⟩ 1 2).1 = treeC4bad := by
  rw [show (33:ℕ) = 32 + 1 from rfl, insertGo_succ]
  dsimp only
  rw [show ((1/2 : ℚ) • ((⟨-1/100, -1/100, -1/100⟩ : Vec3) +
    (⟨101/100, 1/100, 1/100⟩ : Vec3))) = (⟨1/2, 0, 0⟩ : Vec3) from by
    norm_num [Vec3.smul_mk, Vec3.mk_add_mk, Vec3.ext_iff]]
  rw [show OTree.octant ⟨1/2, 0, 0⟩ ⟨1, 0, 0⟩ = 7 from by
    norm_num [OTree.octant]]
  rw [show OTree.getOct (OTree.node ⟨-1/100, -1/100, -1/100⟩
    ⟨101/100, 1/100, 1/100⟩ ⟨0, 0, 0⟩ 2 OTree.empty OTree.empty OTree.empty
    OTree.empty OTree.empty OTree.empty chainC4bad OTree.empty) 7 =
    OTree.empty from rfl]
  dsimp only
  rw [show OTree.childBounds ⟨-1/100, -1/100, -1/100⟩
    ⟨101/100, 1/100, 1/100⟩ 7 =
    ((⟨1/2, 0, 0⟩ : Vec3), (⟨101/100, 1/100, 1/100⟩ : Vec3)) from by
    norm_num [OTree.childBounds, Vec3.smul_mk, Vec3.mk_add_mk, Prod.ext_iff,
      Vec3.ext_iff]]
  dsimp only [OTree.setOct, OTree.updAggregate]
  unfold treeC4bad
  simp only [OTree.node.injEq]
  norm_num [Vec3.smul_mk, Vec3.mk_add_mk, Vec3.ext_iff, Vec3.zero]

theorem buildOctree_posC4bad : buildOctree posC4bad 3 = some treeC4bad := by
  unfold buildOctree
  rw [if_neg (by norm_num)]
  dsimp only
  rw [show List.range 2 = [0, 1] from rfl,
    show List.range 3 = [0, 1, 2] from rfl]
  dsimp only [List.foldl]
  rw [show posC4bad 0 = ⟨0,0,0⟩ from rfl, show posC4bad 1 = ⟨0,0,0⟩ from rfl,
    show posC4bad 2 = ⟨1,0,0⟩ from rfl]
  rw [show ((⟨0,0,0⟩ : Vec3).vmin ⟨0,0,0⟩) = (⟨0,0,0⟩ : Vec3) from by
    norm_num [Vec3.vmin, Vec3.ext_iff, min_def]]
  rw [show ((⟨0,0,0⟩ : Vec3).vmax ⟨0,0,0⟩) = (⟨0,0,0⟩ : Vec3) from by
    norm_num [Vec3.vmax, Vec3.ext_iff, max_def]]
  rw [show ((⟨0,0,0⟩ : Vec3).vmin ⟨1,0,0⟩ - ⟨1/100, 1/100, 1/100⟩) =
    (⟨-1/100, -1/100, -1/100⟩ : Vec3) from by
    norm_num [Vec3.vmin, Vec3.mk_sub_mk, Vec3.ext_iff, min_def]]
  rw [show ((⟨0,0,0⟩ : Vec3).vmax ⟨1,0,0⟩ + ⟨1/100, 1/100, 1/100⟩) =
    (⟨101/100, 1/100, 1/100⟩ : Vec3) from by
    norm_num [Vec3.vmax, Vec3.mk_add_mk, Vec3.ext_iff, max_def]]
  rw [insertC4_step1, insertC4bad_step2, insertC4bad_step3]

theorem traverseC4bad_chain :
    traverseOctree ratSqrt 0 0 1 ⟨1, 0, 0⟩ 2 chainC4bad = ⟨-1, 0, 0⟩ := by
  unfold chainC4bad
  rw [insertGo_coincident ratSqrt 0 1 ⟨1, 0, 0⟩ 2 (le_refl 0) 32
    ⟨-1/100, 0, 0⟩ ⟨1/2, 1/100, 1/100⟩ ⟨0, 0, 0⟩ 1 (by norm_num) 0 1]
  simp only [traverseOctree]
  norm_num [Vec3.mk_sub_mk, Vec3.lengthSq_mk, Vec3.smul_mk, Vec3.ext_iff]

theorem traverseC4bad_root :
    traverseOctree ratSqrt 0 0 1 ⟨1, 0, 0⟩ 2 treeC4bad = ⟨-1, 0, 0⟩ := by
  unfold treeC4bad
  show (if (3:ℚ) < 1/10000000000 then Vec3.zero else _) = _
  rw [if_neg (by norm_num)]
  dsimp only
  rw [if_neg (by
    rw [not_lt, mul_zero]
    exact div_nonneg (mul_self_nonneg _)
      (add_nonneg (lengthSq_nonneg _) (le_refl 0)))]
  rw [traverseC4bad_chain]
  simp only [traverseOctree]
  norm_num [Vec3.mk_add_mk, Vec3.ext_iff, Vec3.zero]

theorem specDirectC4bad :
    specDirectGravityAcc ratSqrt posC4bad 3 1 0 2 = ⟨-2, 0, 0⟩ := by
  unfold specDirectGravityAcc
  rw [show (List.range 3).filter (fun j => j ≠ 2) = [0, 1] from by decide]
  dsimp only [List.foldl]
  norm_num [posC4bad, Vec3.mk_sub_mk, Vec3.lengthSq_mk, Vec3.smul_mk,
    Vec3.mk_add_mk, Vec3.ext_iff, Vec3.zero]

/-- Claim C4, counterexample to the original statement: with θ = 0 the
traversal is NOT always the exact direct sum — on three particles of
which two coincide, the depth-capped insertion drops one of the
coincident particles, so particle 2 feels the gravity of one unit mass
at the origin instead of two. -/
theorem C4_barnes_hut_theta_zero_exact_counterexample :
    applyNbodyGravity ratSqrt posC4bad (fun _ => Vec3.zero) 3 1 0 0 1 2 ≠
      (fun _ => Vec3.zero) 2 +
        (1 : ℚ) • specDirectGravityAcc ratSqrt posC4bad 3 1 0 2 := by
  intro h
  unfold applyNbodyGravity at h
  rw [buildOctree_posC4bad] at h
  dsimp only at h
  rw [if_pos (by norm_num)] at h
  rw [show posC4bad 2 = (⟨1,0,0⟩ : Vec3) from rfl] at h
  rw [show ((0:ℚ) * 0) = 0 from by norm_num] at h
  rw [traverseC4bad_root, specDirectC4bad] at h
  rw [Vec3.ext_iff] at h
  norm_num [Vec3.smul_mk, Vec3.mk_add_mk, Vec3.zero] at h

end Theorems

end XPBD
